import Mathlib

/-!
# Verification of the detran-leilao-crawler core against its specification

This file gives a shallow embedding, in Lean 4, of the parts of the
`detran_leilao_crawler` Python package that the specification's claims are
about, together with theorems settling each claim.

Modelling conventions:
* Python `str` is Lean `String` (operations such as `lower`, `strip`,
  substring containment are defined below on the character list).
* Python `float` is modelled as `ℚ` (the code does no float-specific
  arithmetic relevant to the claims); `datetime` values are modelled as
  rational timestamps.
* Python `Optional[T]` is `Option T`; Python truthiness is modelled
  explicitly where the code relies on it (`x or y`, `if xs:` …).
* File/network I/O is abstracted: durable state is modelled at the data
  level, network responses are oracle parameters of the loop functions.
* External libraries (`dateutil`, `urllib.robotparser`, BeautifulSoup's
  HTML parsing itself) are not code of this repository; where the code
  calls into them the call is either modelled from the library's documented
  behaviour on the structures we pass (CSS selection on an explicit DOM) or
  abstracted as a function parameter (free-form date parsing).
-/

/-! ## Python string primitives -/

/-- Python `str.lower()` (ASCII case folding, as used by the code on its
alias tables and keyword lists). -/
def pyLower (s : String) : String := ⟨s.data.map Char.toLower⟩

/-- Python `str.strip()`: drop leading and trailing whitespace. -/
def pyStripList (cs : List Char) : List Char :=
  ((cs.dropWhile Char.isWhitespace).reverse.dropWhile Char.isWhitespace).reverse

/-- Python `str.strip()` on `String`. -/
def pyStrip (s : String) : String := ⟨pyStripList s.data⟩

/-- Python substring containment `needle in haystack`. -/
def strIn (needle haystack : String) : Bool :=
  haystack.data.tails.any (fun t => needle.data.isPrefixOf t)

/-- Python slicing `s[:n]`. -/
def pyTake (s : String) (n : ℕ) : String := ⟨s.data.take n⟩

/-- One step of whitespace-run collapsing (`re.sub(r"\s+", " ", ·)`):
the boolean records whether the previous character was whitespace. -/
def collapseWSAux : Bool → List Char → List Char
  | _, [] => []
  | prevWS, c :: rest =>
    if c.isWhitespace then
      if prevWS then collapseWSAux true rest
      else ' ' :: collapseWSAux true rest
    else c :: collapseWSAux false rest

/-- `parsers.norm_text`: `_WS.sub(" ", (s or "").strip())` — strip, then
collapse every whitespace run to a single space. -/
def normText (s : String) : String := ⟨collapseWSAux false (pyStripList s.data)⟩

/-- Python `x or y` for strings wrapped in `Option` (`None` and `""` are
falsy). -/
def pyOrStr (a b : Option String) : Option String :=
  match a with
  | some s => if s = "" then b else some s
  | none => b

/-- Python `a or b` where `a : Optional[str]` and `b : str`. -/
def strOr (a : Option String) (b : String) : String :=
  match a with
  | some s => if s = "" then b else s
  | none => b

/-! ## Data model (`models.py`)

`Lot` and `Auction` mirror the frozen dataclasses in `models.py`;
`Sequence[str]` image URLs become `List String`, floats `ℚ`,
datetimes rational timestamps. -/

structure Lot where
  auction_id : String
  lot_id : String
  description_short : String
  brand_model : Option String := none
  year : Option ℤ := none
  situation : Option String := none
  start_bid : Option ℚ := none
  ends_at : Option ℚ := none
  lot_url : Option String := none
  image_urls : List String := []
  requires_login : Bool := false
  raw_text : Option String := none
deriving DecidableEq

structure Auction where
  auction_id : String
  url : String
  number : Option String := none
  city : Option String := none
  yard : Option String := none
  organizer : Option String := none
  status : Option String := none
  ends_at : Option ℚ := none
deriving DecidableEq

/-! ## Filter engine (`filters.py`) -/

structure FiltersConfig where
  ignore_requires_login : Bool := true
  ignore_sucata : Bool := true
  tipo_veiculo : Option String := none
  marcas_permitidas : Option (List String) := none
  ano_min : Option ℤ := none
  ano_max : Option ℤ := none
  valor_max : Option ℚ := none
  descricao_keywords_all : Option (List String) := none
  descricao_keywords_any : Option (List String) := none
deriving DecidableEq

/-- `filters._norm`: `(s or "").strip().lower()`. -/
def pyNormOpt (s : Option String) : String := pyLower (pyStrip (s.getD ""))

/-- `filters._norm` applied to a plain string. -/
def pyNorm (s : String) : String := pyLower (pyStrip s)

/-- The combined description text used by `FilterEngine.accept`:
`_norm(lot.description_short) + " " + _norm(lot.raw_text)`. -/
def lotDesc (lot : Lot) : String :=
  pyNorm lot.description_short ++ " " ++ pyNormOpt lot.raw_text

/-- Python truthiness of an optional string (`if self.cfg.tipo_veiculo:`). -/
def truthyStr (s : Option String) : Bool :=
  match s with
  | some v => v ≠ ""
  | none => false

/-- Python truthiness of an optional list (`if self.cfg.marcas_permitidas:`). -/
def truthyList (l : Option (List String)) : Bool :=
  match l with
  | some xs => xs ≠ []
  | none => false

/-- The normalized, non-empty keywords of a configured keyword list
(`[_norm(k) for k in kws if _norm(k)]`). -/
def normKeywords (l : Option (List String)) : List String :=
  ((l.getD []).map (fun k => pyNormOpt (some k))).filter (fun k => k ≠ "")

/-- Criterion 1: reject when configured to ignore login-required lots and
the lot requires login. -/
def passesLogin (cfg : FiltersConfig) (lot : Lot) : Bool :=
  !(cfg.ignore_requires_login && lot.requires_login)

/-- Criterion 2: reject when configured to ignore scrap ("sucata") and the
description mentions it. -/
def passesSucata (cfg : FiltersConfig) (lot : Lot) : Bool :=
  !(cfg.ignore_sucata && strIn "sucata" (lotDesc lot))

/-- Criterion 3: vehicle-type keyword check (only when configured; the
locals `tv`/`desc` of the Python body are the shown subterms). -/
def passesTipo (cfg : FiltersConfig) (lot : Lot) : Bool :=
  if truthyStr cfg.tipo_veiculo then
    if pyNormOpt cfg.tipo_veiculo = "moto" && !(strIn "moto" (lotDesc lot)) then false
    else if pyNormOpt cfg.tipo_veiculo = "carro" &&
        (["moto", "motocic"].any (fun k => strIn k (lotDesc lot))) then false
    else true
  else true

/-- The `bm` text of the brand criterion. -/
def lotBm (lot : Lot) : String :=
  pyNormOpt lot.brand_model ++ " " ++ pyNorm lot.description_short

/-- Criterion 4: brand allow-list substring check (only when configured). -/
def passesMarcas (cfg : FiltersConfig) (lot : Lot) : Bool :=
  if truthyList cfg.marcas_permitidas then
    if normKeywords cfg.marcas_permitidas ≠ [] &&
        !((normKeywords cfg.marcas_permitidas).any (fun a => strIn a (lotBm lot))) then false
    else true
  else true

/-- Criterion 5: minimum year. -/
def passesAnoMin (cfg : FiltersConfig) (lot : Lot) : Bool :=
  match cfg.ano_min, lot.year with
  | some lo, some y => !(y < lo)
  | _, _ => true

/-- Criterion 6: maximum year. -/
def passesAnoMax (cfg : FiltersConfig) (lot : Lot) : Bool :=
  match cfg.ano_max, lot.year with
  | some hi, some y => !(y > hi)
  | _, _ => true

/-- Criterion 7: price ceiling. -/
def passesValor (cfg : FiltersConfig) (lot : Lot) : Bool :=
  match cfg.valor_max, lot.start_bid with
  | some vmax, some b => !(b > vmax)
  | _, _ => true

/-- Criterion 8: all of the `descricao_keywords_all` keywords must occur. -/
def passesKwAll (cfg : FiltersConfig) (lot : Lot) : Bool :=
  if truthyList cfg.descricao_keywords_all then
    if (normKeywords cfg.descricao_keywords_all).any
        (fun k => !(strIn k (lotDesc lot))) then false
    else true
  else true

/-- Criterion 9: at least one of the `descricao_keywords_any` keywords. -/
def passesKwAny (cfg : FiltersConfig) (lot : Lot) : Bool :=
  if truthyList cfg.descricao_keywords_any then
    if normKeywords cfg.descricao_keywords_any ≠ [] &&
        !((normKeywords cfg.descricao_keywords_any).any
          (fun k => strIn k (lotDesc lot))) then false
    else true
  else true

/-- `FilterEngine.accept`, translated clause by clause from `filters.py`
(the method's locals `desc`, `tv`, `allowed`, `bm`, `kws` are the shown
subterms `lotDesc lot`, `pyNormOpt cfg.tipo_veiculo`,
`normKeywords …`, `lotBm lot`). -/
def accept (cfg : FiltersConfig) (lot : Lot) : Bool :=
  if cfg.ignore_requires_login && lot.requires_login then false
  else if cfg.ignore_sucata && strIn "sucata" (lotDesc lot) then false
  else if truthyStr cfg.tipo_veiculo &&
      ((pyNormOpt cfg.tipo_veiculo = "moto" && !(strIn "moto" (lotDesc lot))) ||
       (pyNormOpt cfg.tipo_veiculo = "carro" &&
         (["moto", "motocic"].any (fun k => strIn k (lotDesc lot))))) then false
  else if truthyList cfg.marcas_permitidas &&
      (normKeywords cfg.marcas_permitidas ≠ [] &&
       !((normKeywords cfg.marcas_permitidas).any (fun a => strIn a (lotBm lot)))) then false
  else if (match cfg.ano_min, lot.year with
           | some lo, some y => decide (y < lo)
           | _, _ => false) then false
  else if (match cfg.ano_max, lot.year with
           | some hi, some y => decide (y > hi)
           | _, _ => false) then false
  else if (match cfg.valor_max, lot.start_bid with
           | some vmax, some b => decide (b > vmax)
           | _, _ => false) then false
  else if truthyList cfg.descricao_keywords_all &&
      ((normKeywords cfg.descricao_keywords_all).any
        (fun k => !(strIn k (lotDesc lot)))) then false
  else if truthyList cfg.descricao_keywords_any &&
      (normKeywords cfg.descricao_keywords_any ≠ [] &&
       !((normKeywords cfg.descricao_keywords_any).any
         (fun k => strIn k (lotDesc lot)))) then false
  else true

/-! ## Checkpoint store (`checkpoint.py`)

`CrawlCheckpoint.pages_done : Dict[str, Set[int]]` is modelled as an
insertion-ordered association list from auction ids to finite sets of
integers (Python dicts preserve insertion order; `setdefault` appends a
fresh key at the end).  `save`/`load` exchange the durable representation
`{"pages_done": {auction_id: sorted list}}`; the file read/write and JSON
encoding are modelled at the data level (`saveData`/`loadData`). -/

structure CrawlCheckpoint where
  pages_done : List (String × Finset ℤ)
deriving DecidableEq

/-- First-match association lookup (Python dict indexing; keys of a dict
are unique). -/
def lookupPages (entries : List (String × Finset ℤ)) (a : String) : Option (Finset ℤ) :=
  match entries with
  | [] => none
  | (k, s) :: rest => if k = a then some s else lookupPages rest a

/-- `CrawlCheckpoint.is_page_done`: `page in self.pages_done.get(auction_id, set())`. -/
def is_page_done (st : CrawlCheckpoint) (auction_id : String) (page : ℤ) : Bool :=
  page ∈ (lookupPages st.pages_done auction_id).getD ∅

/-- `setdefault(auction_id, set()).add(page)` on the association list. -/
def markAux (entries : List (String × Finset ℤ)) (a : String) (p : ℤ) :
    List (String × Finset ℤ) :=
  match entries with
  | [] => [(a, {p})]
  | (k, s) :: rest => if k = a then (k, insert p s) :: rest else (k, s) :: markAux rest a p

/-- `CrawlCheckpoint.mark_page_done`. -/
def mark_page_done (st : CrawlCheckpoint) (auction_id : String) (page : ℤ) : CrawlCheckpoint :=
  ⟨markAux st.pages_done auction_id page⟩

/-- The serialized form written by `save()`:
`{k: sorted(list(v)) for k, v in self.pages_done.items()}`. -/
def saveData (st : CrawlCheckpoint) : List (String × List ℤ) :=
  st.pages_done.map (fun kv => (kv.1, kv.2.sort (· ≤ ·)))

/-- The in-memory state rebuilt by `load()`:
`{k: set(v) for k, v in data.get("pages_done", {}).items()}`. -/
def loadData (d : List (String × List ℤ)) : CrawlCheckpoint :=
  ⟨d.map (fun kv => (kv.1, kv.2.toFinset))⟩

/-- A whole run of `mark_page_done` calls starting from the empty state
(the state `load()` produces when the backing file is missing). -/
def applyMarks (ops : List (String × ℤ)) : CrawlCheckpoint :=
  ops.foldl (fun st op => mark_page_done st op.1 op.2) ⟨[]⟩

/-! ## Retry policy (`retry.py`)

`retry_call` is modelled over an oracle `fn : ℕ → Except ε τ` giving the
outcome of the `n`-th invocation of the zero-argument callable (`.ok` =
normal return, `.error` = raised exception).  The backoff sleeps are purely
temporal and do not affect control flow, so they are not modelled.  The
result records how the call ends together with the number of invocations
of `fn`. -/

inductive RetryResult (ε τ : Type) where
  | value : τ → RetryResult ε τ
  | raised : ε → RetryResult ε τ
  /-- The `assert last_exc is not None` after the loop fails: only
  reachable when `max_attempts < 1`, i.e. `range(1, max_attempts + 1)` is
  empty and no call was ever made. -/
  | assertionError : RetryResult ε τ
deriving DecidableEq

/-- The `for attempt in range(1, max_attempts + 1)` loop of `retry_call`;
`fuel` is the number of remaining loop iterations. -/
def retryAux {ε τ : Type} (fn : ℕ → Except ε τ) (shouldRetry : ε → Bool)
    (maxAttempts : ℕ) : ℕ → ℕ → RetryResult ε τ × ℕ
  | _, 0 => (.assertionError, 0)
  | attempt, fuel + 1 =>
    match fn attempt with
    | .ok t => (.value t, 1)
    | .error e =>
      if maxAttempts ≤ attempt || !(shouldRetry e) then (.raised e, 1)
      else
        let r := retryAux fn shouldRetry maxAttempts (attempt + 1) fuel
        (r.1, r.2 + 1)

/-- `retry.retry_call(fn, policy, should_retry)` (only
`policy.max_attempts` influences control flow). -/
def retry_call {ε τ : Type} (fn : ℕ → Except ε τ) (maxAttempts : ℕ)
    (shouldRetry : ε → Bool) : RetryResult ε τ × ℕ :=
  retryAux fn shouldRetry maxAttempts 1 maxAttempts

/-! ## Rate limiter (`rate_limit.py`)

`wait()` is modelled as a pure transition on the `_next_allowed_at`
register: given the current monotonic time `now` it returns the duration
passed to `time.sleep` and the updated limiter. -/

structure RateLimiter where
  rate_per_sec : ℚ
  next_allowed_at : ℚ := 0
deriving DecidableEq

/-- `RateLimiter.wait`, with the actual sleeping abstracted into the first
component of the result. -/
def RateLimiter.wait (rl : RateLimiter) (now : ℚ) : ℚ × RateLimiter :=
  if rl.rate_per_sec ≤ 0 then (0, rl)
  else
    let interval := 1 / rl.rate_per_sec
    let na := if rl.next_allowed_at = 0 then now else rl.next_allowed_at
    let sleep_for := max 0 (na - now)
    (sleep_for, { rl with next_allowed_at := max na now + interval })

/-! ## Robots policy (`robots.py`)

`urllib.robotparser.RobotFileParser` is an external library; its parsed
rule set is abstracted as a predicate `rules : String → Bool` (the value
`can_fetch` delegates to once `_loaded` holds).  `load()` is modelled by
its outcome: `some r` when the fetch+parse succeeded with rule set `r`,
`none` when any exception was raised (the `except` branch, which only
resets `_loaded`). -/

structure RobotsPolicy where
  loaded : Bool
  rules : String → Bool

/-- A freshly constructed policy: `_loaded = False`, `_rp` a fresh parser
(whose rules are never consulted while `_loaded` is false). -/
def RobotsPolicy.init : RobotsPolicy := ⟨false, fun _ => true⟩

/-- `RobotsPolicy.load`. -/
def RobotsPolicy.load (pol : RobotsPolicy) (fetched : Option (String → Bool)) : RobotsPolicy :=
  match fetched with
  | some r => { loaded := true, rules := r }
  | none => { pol with loaded := false }

/-- `RobotsPolicy.can_fetch`. -/
def RobotsPolicy.can_fetch (pol : RobotsPolicy) (url : String) : Bool :=
  if !pol.loaded then true else pol.rules url

/-! ## Auction-details enrichment (`parsers.parse_auction_details_from_html`)

The function extracts the page text and fills each still-absent field of
the given `Auction` with a regex-guessed value, using Python `or` (so a
field holding a *falsy* value is treated as absent).  The regex helpers
`_guess_auction_number` and `_extract_kv` delegate to Python's `re`
backtracking engine; their results on the page text are abstracted as the
parameters `gNumber`/`gCity`/`gYard`/`gOrganizer` (note that both helpers
return either `None` or a non-empty string).  `_guess_status`, a plain
substring search, is embedded exactly; the `ends_at` label loop delegates
to `dateutil` and is abstracted as the first successfully parsed value
`gEndsAt`. -/

/-- `parsers._guess_status`: lowercase the normalized text and return the
first matching status keyword. -/
def guessStatus (text : String) : Option String :=
  let t := pyLower (normText text)
  ["publicado", "aberto", "encerrado", "finalizado", "em andamento"].find?
    (fun k => strIn k t)

/-- `parsers.parse_auction_details_from_html`, parameterized by the results
of the regex helpers on the page text (see section comment). -/
def parse_auction_details_from_html (text : String)
    (gNumber gCity gYard gOrganizer : Option String) (gEndsAt : Option ℚ)
    (a : Auction) : Auction :=
  { auction_id := a.auction_id
    url := a.url
    number := pyOrStr a.number gNumber
    city := pyOrStr a.city gCity
    yard := pyOrStr a.yard gYard
    organizer := pyOrStr a.organizer gOrganizer
    status := pyOrStr a.status (guessStatus text)
    ends_at := match a.ends_at with
               | some d => some d
               | none => gEndsAt }

/-! ## JSON values (`api_json.py`)

`json.loads` output is modelled by `Json`.  Python distinguishes `int`,
`float` and `bool` (and `bool` is an `int` subclass — relevant to several
`isinstance` tests in the code), so the model keeps them apart.  Objects
are insertion-ordered association lists with unique keys (as produced by
`json.loads`). -/

inductive Json where
  | null
  | bool (b : Bool)
  | int (n : ℤ)
  | float (q : ℚ)
  | str (s : String)
  | arr (elems : List Json)
  | obj (fields : List (String × Json))

/-- Python `obj.get(key)` / `obj[key]` on a dict (keys are unique). -/
def jsonLookup : List (String × Json) → String → Option Json
  | [], _ => none
  | (k, v) :: rest, key => if k = key then some v else jsonLookup rest key

theorem jsonLookup_sizeOf {kvs : List (String × Json)} {key : String} {v : Json}
    (h : jsonLookup kvs key = some v) : sizeOf v < sizeOf kvs := by
  induction kvs with
  | nil => simp [jsonLookup] at h
  | cons kv rest ih =>
    obtain ⟨k, w⟩ := kv
    simp only [jsonLookup] at h
    by_cases hk : k = key
    · rw [if_pos hk] at h
      injection h with h
      subst h
      simp only [List.cons.sizeOf_spec, Prod.mk.sizeOf_spec]
      omega
    · rw [if_neg hk] at h
      have := ih h
      simp only [List.cons.sizeOf_spec, Prod.mk.sizeOf_spec]
      omega

/-- Python truthiness of a JSON-derived value. -/
def pyTruthy : Json → Bool
  | .null => false
  | .bool b => b
  | .int n => n ≠ 0
  | .float q => q ≠ 0
  | .str s => s ≠ ""
  | .arr xs => !xs.isEmpty
  | .obj kvs => !kvs.isEmpty

/-- Python truthiness of an `Optional` JSON value. -/
def optTruthy (o : Option Json) : Bool :=
  match o with
  | some v => pyTruthy v
  | none => false

/-- Rendering of a float for `str()`.  Python's shortest-roundtrip float
formatting is not modelled; no claim inspects a stringified float. -/
def ratStr (q : ℚ) : String :=
  if q.den = 1 then toString q.num ++ ".0" else toString q.num ++ "/" ++ toString q.den

/-- Python `str()` of a JSON-derived value.  The `repr` text of container
values is abstracted by fixed placeholders; no claim inspects it. -/
def pyStr : Json → String
  | .null => "None"
  | .bool b => if b then "True" else "False"
  | .int n => toString n
  | .float q => ratStr q
  | .str s => s
  | .arr _ => "<list>"
  | .obj _ => "<dict>"

/-- `None`-filtering used by `_get_first` (`obj[k] is not None`). -/
def nonNull : Json → Option Json
  | .null => none
  | v => some v

/-- The case-insensitive key map `low = {str(k).lower(): k for k in obj}`:
for a lowercased key, the *last* original key mapping to it wins. -/
def lowKeyLookup (kvs : List (String × Json)) (lk : String) : Option String :=
  ((kvs.map Prod.fst).filter (fun k => pyLower k = lk)).getLast?

/-- `api_json._get_first`: an exact-key pass over the alias list followed
by a case-insensitive pass, skipping `None` values. -/
def getFirst (kvs : List (String × Json)) (keys : List String) : Option Json :=
  match keys.findSome? (fun k => (jsonLookup kvs k).bind nonNull) with
  | some v => some v
  | none =>
    keys.findSome? (fun k =>
      (lowKeyLookup kvs (pyLower k)).bind (fun kk => (jsonLookup kvs kk).bind nonNull))

/-- `int()` truncation (toward zero) of a Python float. -/
def ratTrunc (q : ℚ) : ℤ := if 0 ≤ q then ⌊q⌋ else -⌊-q⌋

/-- `api_json.get_total_pages`.  `isinstance(v, (int, float))` also accepts
Python bools (an `int` subclass). -/
def get_total_pages : Json → Option ℤ
  | .obj kvs =>
    match getFirst kvs ["totalPages", "total_pages", "paginas", "qtdPaginas", "lastPage"] with
    | some (.int n) => some n
    | some (.float q) => some (ratTrunc q)
    | some (.bool b) => some (if b then 1 else 0)
    | _ => none
  | _ => none

/-- Remove every occurrence of `"R$"` (Python `str.replace`, left to
right). -/
def stripRS : List Char → List Char
  | 'R' :: '$' :: rest => stripRS rest
  | c :: rest => c :: stripRS rest
  | [] => []

/-- Numeric value of a digit string. -/
def digitsToNat (ds : List Char) : ℕ :=
  ds.foldl (fun acc c => 10 * acc + (c.toNat - '0'.toNat)) 0

/-- Python `float()` on the plain decimal forms `safe_float`'s cleanup
produces (`[+-]? digits [. digits]`).  Exponent, `inf`/`nan` and
underscore forms accepted by `float()` are not modelled. -/
def pyFloat (s : String) : Option ℚ :=
  let p : ℚ × List Char :=
    match s.data with
    | '-' :: rest => (-1, rest)
    | '+' :: rest => (1, rest)
    | cs => (1, cs)
  let intPart := p.2.takeWhile Char.isDigit
  let rest := p.2.dropWhile Char.isDigit
  match rest with
  | [] => if intPart = [] then none else some (p.1 * digitsToNat intPart)
  | '.' :: frac =>
    if frac.all Char.isDigit && (intPart ≠ [] || frac ≠ []) then
      some (p.1 * ((digitsToNat intPart : ℚ) + (digitsToNat frac : ℚ) / (10 : ℚ) ^ frac.length))
    else none
  | _ => none

/-- `logging_utils.safe_float`: strip currency symbol, spaces and thousands
dots, use the comma as decimal point, then parse. -/
def safe_float (text : Option String) : Option ℚ :=
  match text with
  | none => none
  | some s =>
    if s = "" then none
    else
      let cleaned : List Char :=
        ((stripRS s.data).filter (fun c => c ≠ ' ' && c ≠ '.')).map
          (fun c => if c = ',' then '.' else c)
      pyFloat (pyStrip ⟨cleaned⟩)

/-- `api_json._parse_dt`, with datetimes as rational Unix timestamps.
String values go through `datetime.fromisoformat` with a `dateutil`
fallback — both external, abstracted as `dtParse`.  Python bools pass the
`isinstance(value, (int, float))` test. -/
def parse_dt (dtParse : String → Option ℚ) : Json → Option ℚ
  | .int n => some (if (n : ℚ) > 10000000000 then (n : ℚ) / 1000 else (n : ℚ))
  | .float q => some (if q > 10000000000 then q / 1000 else q)
  | .bool b => some (if b then 1 else 0)
  | .str s =>
    let t := pyStrip s
    if t = "" then none else dtParse t
  | _ => none

/-- The digit value of a character, as an integer. -/
def charDigit (c : Char) : ℤ := ((c.toNat - '0'.toNat : ℕ) : ℤ)

/-- `re.search(r"(19\d{2}|20\d{2})", s)` (no word boundaries — the form
used on year fields in `api_json`): first position matching either
alternative, tried left to right. -/
def searchYearLoose : List Char → Option ℤ
  | c1 :: rest@(c2 :: c3 :: c4 :: _) =>
    if c1 = '1' && c2 = '9' && c3.isDigit && c4.isDigit then
      some (1900 + 10 * charDigit c3 + charDigit c4)
    else if c1 = '2' && c2 = '0' && c3.isDigit && c4.isDigit then
      some (2000 + 10 * charDigit c3 + charDigit c4)
    else searchYearLoose rest
  | _ => none

/-- The container keys probed by `_iter_candidate_item_lists`. -/
def commonContainerKeys : List String :=
  ["items", "content", "data", "result", "results", "registros", "lotes", "lots", "rows"]

/-- `isinstance(v[0], (dict, str, int))` — Python bools are ints. -/
def headIsCandidate : List Json → Bool
  | [] => false
  | x :: _ =>
    match x with
    | .obj _ => true
    | .str _ => true
    | .int _ => true
    | .bool _ => true
    | _ => false

/-- The `for v in obj.values()` pass of `_iter_candidate_item_lists`:
yield every non-empty list value whose first element is dict/str/int. -/
def iterAnyListValues (kvs : List (String × Json)) : List (List Json) :=
  kvs.filterMap (fun kv =>
    match kv.2 with
    | .arr v => if !v.isEmpty && headIsCandidate v then some v else none
    | _ => none)

mutual

/-- `api_json._iter_candidate_item_lists`, as the list of candidate item
lists it yields, in yield order. -/
def iterCandidateItemLists : Json → List (List Json)
  | .arr xs => [xs]
  | .obj kvs => iterCommonKeys kvs commonContainerKeys ++ iterAnyListValues kvs
  | _ => []
termination_by j => (sizeOf j, 0)
decreasing_by
  apply Prod.Lex.left
  simp only [Json.obj.sizeOf_spec]
  omega

/-- The `for key in [...]` pass of `_iter_candidate_item_lists`: a list
value is yielded, a dict value is recursed into. -/
def iterCommonKeys (kvs : List (String × Json)) : List String → List (List Json)
  | [] => []
  | key :: more =>
    (match h : jsonLookup kvs key with
     | some (.arr v) => [v]
     | some (.obj inner) => iterCandidateItemLists (.obj inner)
     | _ => []) ++ iterCommonKeys kvs more
termination_by keys => (sizeOf kvs, keys.length + 1)
decreasing_by
  · apply Prod.Lex.left
    have := jsonLookup_sizeOf h
    simp only [Json.obj.sizeOf_spec] at this ⊢
    omega
  · apply Prod.Lex.right
    simp only [List.length_cons]
    omega

end

/-! ### Canonical-record conversion (`extract_lots_from_json`) -/

/-- The id-like sample keys of the acceptance heuristic. -/
def idSampleKeys : List String :=
  ["lote", "loteid", "id", "numero", "numerolote", "codigolote"]

/-- `any(k in sample_keys for k in [id aliases])` over the lowercased keys
of the first dict-shaped item. -/
def hasIdKey (sample : List (String × Json)) : Bool :=
  let sample_keys := sample.map (fun kv => pyLower kv.1)
  idSampleKeys.any (fun k => sample_keys.contains k)

/-- `any("desc" in k for k in sample_keys) or any(k in sample_keys for k
in ["modelo", "marca", "marcamodelo"])`. -/
def hasDescKey (sample : List (String × Json)) : Bool :=
  let sample_keys := sample.map (fun kv => pyLower kv.1)
  sample_keys.any (fun k => strIn "desc" k) ||
    (["modelo", "marca", "marcamodelo"].any (fun k => sample_keys.contains k))

/-- The acceptance score of a candidate's first dict-shaped item. -/
def sampleScore (sample : List (String × Json)) : ℕ :=
  (if hasIdKey sample then 1 else 0) + (if hasDescKey sample then 1 else 0)

/-- The dict-shaped items of a candidate list
(`[x for x in items if isinstance(x, dict)]`). -/
def dictItems (items : List Json) : List (List (String × Json)) :=
  items.filterMap (fun x =>
    match x with
    | .obj kvs => some kvs
    | _ => none)

/-- Conversion of one dict-shaped item into a canonical `Lot`
(the body of the `for it in dict_items` loop). -/
def convertItem (dtParse : String → Option ℚ) (auction_id : String)
    (it : List (String × Json)) : Lot :=
  let lot_id := getFirst it
    ["lotId", "loteId", "id", "lote", "numeroLote", "numLote", "codigoLote", "codigo", "numero"]
  let lot_id_s := match lot_id with
    | some v => pyStr v
    | none => "unknown"
  let desc := getFirst it
    ["descricaoCurta", "descricao", "descricaoResumida", "nome", "titulo", "title"]
  let desc_s := match desc with
    | some v => pyStrip (pyStr v)
    | none => "(sem descrição)"
  let brand := getFirst it ["marcaModelo", "marca_modelo", "marca", "brand"]
  let model := getFirst it ["modelo", "model"]
  let brand_model : Option String :=
    if optTruthy brand && optTruthy model then
      some (pyStrip (pyStr (brand.getD .null) ++ " " ++ pyStr (model.getD .null)))
    else if optTruthy brand then some (pyStrip (pyStr (brand.getD .null)))
    else if optTruthy model then some (pyStrip (pyStr (model.getD .null)))
    else none
  let year := getFirst it
    ["ano", "anoModelo", "ano_modelo", "anoFabricacao", "ano_fabricacao", "year"]
  let year_i : Option ℤ := match year with
    | some v => if pyStrip (pyStr v) = "" then none else searchYearLoose (pyStr v).data
    | none => none
  let situation := getFirst it ["situacao", "status", "tipo", "categoria"]
  let situation_s : Option String := situation.map (fun v => pyStrip (pyStr v))
  let start_bid := getFirst it
    ["lanceInicial", "valorInicial", "valorMinimo", "precoInicial", "startBid"]
  let start_bid_f : Option ℚ := match start_bid with
    | some (.int n) => some (n : ℚ)
    | some (.float q) => some q
    | some (.bool b) => some (if b then 1 else 0)
    | some v => safe_float (some (pyStr v))
    | none => none
  let ends_at := match getFirst it ["dataEncerramento", "encerramento", "fim", "endsAt"] with
    | some v => parse_dt dtParse v
    | none => none
  let lot_url := getFirst it ["url", "link", "detalheUrl", "detailsUrl"]
  let lot_url_s : Option String := lot_url.map (fun v => pyStrip (pyStr v))
  let imgs_val := getFirst it ["imagens", "images", "fotos", "fotosUrl", "photos"]
  let image_urls : List String := match imgs_val with
    | some (.arr ims) =>
      ims.filterMap (fun im =>
        match im with
        | .str u => some u
        | .obj okvs =>
          match getFirst okvs ["url", "src", "caminho", "path"] with
          | some u => if pyTruthy u then some (pyStr u) else none
          | none => none
        | _ => none)
    | _ => []
  { auction_id := auction_id
    lot_id := lot_id_s
    description_short := pyTake desc_s 180
    brand_model := brand_model
    year := year_i
    situation := situation_s
    start_bid := start_bid_f
    ends_at := ends_at
    lot_url := lot_url_s
    image_urls := image_urls
    requires_login := false
    raw_text := none }

/-- The `for items in _iter_candidate_item_lists(obj)` loop of
`extract_lots_from_json`, carrying the accumulated `lots` list. -/
def extractGo (dtParse : String → Option ℚ) (auction_id : String) :
    List (List Json) → List Lot → List Lot
  | [], lots => lots
  | items :: rest, lots =>
    if items.isEmpty then extractGo dtParse auction_id rest lots
    else
      match dictItems items with
      | [] => extractGo dtParse auction_id rest lots
      | sample :: others =>
        if sampleScore sample = 0 then extractGo dtParse auction_id rest lots
        else
          let lots' := lots ++ (sample :: others).map (convertItem dtParse auction_id)
          if lots'.isEmpty then extractGo dtParse auction_id rest lots' else lots'

/-- `api_json.extract_lots_from_json`. -/
def extract_lots_from_json (dtParse : String → Option ℚ) (j : Json)
    (auction_id : String) : List Lot :=
  extractGo dtParse auction_id (iterCandidateItemLists j) []

/-! ## JSON-API pagination (`crawler._try_crawl_lots_via_json_api`)

The pagination loop (lines 554–607 of `crawler.py`) is modelled over a
per-page response oracle.  The URL/body rewriting (`paginate_url` /
`paginate_payload`) only determines *which* request is issued, so it is
folded into the oracle; `self._respect(url)` becomes a per-page oracle
`respect`.  The rate limiter and the JSONL log writes are time/IO effects
with no influence on control flow. -/

/-- Outcome of the plain-HTTP re-issue of the best endpoint for one page:
`exc` = the request raised (caught by the `except` → `break`);
`resp status data` = a response with the given status whose parsed JSON
body is `data` (`none` models `resp.json()` raising). -/
inductive FetchRes where
  | exc
  | resp (status : ℤ) (data : Option Json)

/-- Playwright's `APIResponse.ok`: status in [200, 300). -/
def respOk (status : ℤ) : Bool := decide (200 ≤ status) && decide (status < 300)

/-- Loop state: the accumulated lots, the pages marked done in the
checkpoint for this auction, and (model instrumentation) the pages for
which a network request was actually issued, in order. -/
structure ApiSt where
  lots_all : List Lot
  done : Finset ℤ
  trace : List ℤ
deriving DecidableEq

/-- `for page_num in range(2, target_pages + 1)`, translated arm by arm.
The boolean result is true exactly on the `return []` taken for a 401/403
status (the "requires authentication" abort); every other exit — the
`break`s and normal exhaustion — falls through to the final dedup. -/
def apiLoop (dtParse : String → Option ℚ) (auction_id : String)
    (fetch : ℤ → FetchRes) (respect : ℤ → Bool) (method : String)
    (maxPages : Option ℤ) (totalPages : Option ℤ) :
    List ℤ → ApiSt → ApiSt × Bool
  | [], st => (st, false)
  | p :: rest, st =>
    if (match maxPages with
        | some m => decide (p > m)
        | none => false) then (st, false)
    else if p ∈ st.done then
      apiLoop dtParse auction_id fetch respect method maxPages totalPages rest st
    else if method ≠ "GET" && method ≠ "POST" then (st, false)
    else if !respect p then (st, false)
    else
      let st := { st with trace := st.trace ++ [p] }
      match fetch p with
      | .exc => (st, false)
      | .resp status data =>
        if status = 401 || status = 403 then (st, true)
        else if !respOk status then (st, false)
        else
          match data with
          | none => (st, false)
          | some body =>
            let lots := extract_lots_from_json dtParse body auction_id
            if lots.isEmpty && totalPages.isNone then (st, false)
            else
              apiLoop dtParse auction_id fetch respect method maxPages totalPages rest
                { st with lots_all := st.lots_all ++ lots, done := insert p st.done }

/-- The page bound: an explicit `max_pages` wins, then a recognized total
page count, then the safety ceiling 50. -/
def targetPages (maxPages totalPages : Option ℤ) : ℤ :=
  match maxPages with
  | some m => m
  | none =>
    match totalPages with
    | some t => t
    | none => 50

/-- Python `range(a, b)` over integers. -/
def pythonRange (a b : ℤ) : List ℤ :=
  (List.range (b - a).toNat).map (fun (i : ℕ) => a + (i : ℤ))

/-- Lines 528–554 and the loop of `_try_crawl_lots_via_json_api`, from the
point where a best endpoint with non-empty page-1 records exists: read the
total page count from the best payload, compute the bound and run the
pagination loop (`dry_run = False`). -/
def tryCrawlPagination (dtParse : String → Option ℚ) (auction_id : String)
    (fetch : ℤ → FetchRes) (respect : ℤ → Bool) (method : String)
    (maxPages : Option ℤ) (bestJson : Json) (st0 : ApiSt) : ApiSt × Bool :=
  let totalPages := get_total_pages bestJson
  let target := targetPages maxPages totalPages
  apiLoop dtParse auction_id fetch respect method maxPages totalPages
    (pythonRange 2 (target + 1)) st0

/-! ## HTML documents and CSS selection (`parsers.parse_lot_cards_from_html`)

BeautifulSoup's parsed tree is modelled by `HNode` (elements with a tag,
attributes and children, plus text nodes); a parsed document is the list
of its top-level nodes.  The selector operations the function uses —
`select("div, article")`, class selectors, descendant combinators,
`#id`/`[attr]` selection, `get_text(sep)`, `get(attr)` — are defined from
their documented CSS semantics on this explicit tree.  The `re` patterns
the function uses are embedded as dedicated scanners (documented at each
definition); `\w`/`\W` use the ASCII word-character class (the claims'
inputs are ASCII apart from fixed vocabulary words handled verbatim). -/

inductive HNode where
  | elem (tag : String) (attrs : List (String × String)) (children : List HNode)
  | text (s : String)

mutual

/-- The `NavigableString` contents of a node, in document order. -/
def nodeStrings : HNode → List String
  | .text s => [s]
  | .elem _ _ cs => forestStrings cs

def forestStrings : List HNode → List String
  | [] => []
  | n :: ns => nodeStrings n ++ forestStrings ns

end

/-- `node.get_text(sep)`. -/
def getTextSep (sep : String) (n : HNode) : String :=
  String.intercalate sep (nodeStrings n)

mutual

/-- All element descendants of a node, in document (pre)order. -/
def elemsOf : HNode → List HNode
  | .text _ => []
  | .elem _ _ cs => elemsForest cs

def elemsForest : List HNode → List HNode
  | [] => []
  | n :: ns =>
    (match n with
     | .elem _ _ _ => [n]
     | .text _ => []) ++ elemsOf n ++ elemsForest ns

end

/-- `tag.get(attr)`. -/
def getAttr (n : HNode) (key : String) : Option String :=
  match n with
  | .elem _ attrs _ =>
    (attrs.find? (fun kv => kv.1 = key)).map Prod.snd
  | .text _ => none

/-- Children of an element. -/
def childrenOf : HNode → List HNode
  | .elem _ _ cs => cs
  | .text _ => []

/-- Whitespace tokenization of a `class` attribute value. -/
def classTokens : List Char → List Char → List String
  | acc, [] => if acc.isEmpty then [] else [⟨acc.reverse⟩]
  | acc, c :: rest =>
    if c.isWhitespace then
      if acc.isEmpty then classTokens [] rest else ⟨acc.reverse⟩ :: classTokens [] rest
    else classTokens (c :: acc) rest

/-- Class-attribute membership (the `class` attribute split on
whitespace). -/
def hasClass (n : HNode) (c : String) : Bool :=
  match getAttr n "class" with
  | some v => (classTokens [] v.data).contains c
  | none => false

/-- Tag test. -/
def tagIs (t : String) (n : HNode) : Bool :=
  match n with
  | .elem tag _ _ => tag = t
  | .text _ => false

/-- `div.<c>` selector. -/
def selDivClass (c : String) (n : HNode) : Bool := tagIs "div" n && hasClass n c

/-- `div.<c₁>.<c₂>…` selector. -/
def selDivClasses (cs : List String) (n : HNode) : Bool :=
  tagIs "div" n && cs.all (fun c => hasClass n c)

mutual

/-- Descendant-combinator selection below one node: emit the node when it
matches `tgt` under a seen `anc` ancestor, then descend with the flag
updated by whether this node matches `anc`. -/
def selectUnderNode (anc tgt : HNode → Bool) : Bool → HNode → List HNode
  | _, .text _ => []
  | hasAnc, .elem tag attrs cs =>
    (if hasAnc && tgt (.elem tag attrs cs) then [.elem tag attrs cs] else []) ++
    selectUnderList anc tgt (hasAnc || anc (.elem tag attrs cs)) cs

def selectUnderList (anc tgt : HNode → Bool) : Bool → List HNode → List HNode
  | _, [] => []
  | hasAnc, n :: ns =>
    selectUnderNode anc tgt hasAnc n ++ selectUnderList anc tgt hasAnc ns

end

/-- Descendant-combinator selection `anc tgt` below a forest: elements
matching `tgt` with a proper ancestor (inside the forest) matching `anc`,
in document order; the flag records whether such an ancestor is above the
current forest. -/
def selectUnder (anc tgt : HNode → Bool) (hasAnc : Bool) (ns : List HNode) : List HNode :=
  selectUnderList anc tgt hasAnc ns

mutual

/-- Two-level descendant selection below one node. -/
def selectUnder2Node (a1 a2 tgt : HNode → Bool) : Bool → Bool → HNode → List HNode
  | _, _, .text _ => []
  | s1, s2, .elem tag attrs cs =>
    (if s2 && tgt (.elem tag attrs cs) then [.elem tag attrs cs] else []) ++
    selectUnder2List a1 a2 tgt (s1 || a1 (.elem tag attrs cs))
      (s2 || (s1 && a2 (.elem tag attrs cs))) cs

def selectUnder2List (a1 a2 tgt : HNode → Bool) : Bool → Bool → List HNode → List HNode
  | _, _, [] => []
  | s1, s2, n :: ns =>
    selectUnder2Node a1 a2 tgt s1 s2 n ++ selectUnder2List a1 a2 tgt s1 s2 ns

end

/-- Two-level descendant selection `a₁ a₂ tgt` (e.g.
`div.card-body b span`). -/
def selectUnder2 (a1 a2 tgt : HNode → Bool) (s1 s2 : Bool) (ns : List HNode) : List HNode :=
  selectUnder2List a1 a2 tgt s1 s2 ns

/-! ### The `re` patterns of `parse_lot_cards_from_html` -/

/-- The ASCII `\w` class. -/
def isWordChar (c : Char) : Bool := c.isAlphanum || c = '_'

/-- The character class `[a-zA-Z0-9\-\.]` of the lot-id group. -/
def isGroupChar (c : Char) : Bool := c.isAlphanum || c = '-' || c = '.'

/-- Case-insensitive literal prefix test (for `re.IGNORECASE` literals). -/
def ciHasPrefix (pat : String) (cs : List Char) : Bool :=
  pat.data.isPrefixOf (cs.map Char.toLower)

/-- Whether the position between a matched last character and the next
input character is a `\b` word boundary. -/
def boundaryBetween (last : Char) (next : Option Char) : Bool :=
  match next with
  | none => isWordChar last
  | some n => isWordChar last != isWordChar n

/-- Backtracking of the greedy group `[0-9]+[a-zA-Z0-9\-\.]*` against a
trailing `\b`, on the reversed run: drop characters from the end until
the cut lies on a word boundary. -/
def shrinkRev : Option Char → List Char → Option (List Char)
  | _, [] => none
  | next, last :: revRest =>
    if boundaryBetween last next then some ((last :: revRest).reverse)
    else shrinkRev (some last) revRest

/-- The longest prefix of the greedy run whose end lies on a word
boundary. -/
def shrinkToBoundary (run : List Char) (next : Option Char) : Option (List Char) :=
  shrinkRev next run.reverse

/-- The group match of `\bLote\s*[:#-]?\s*([0-9]+[a-zA-Z0-9\-\.]*)\b`
starting right after the literal `Lote` (`allowPunct` false drops the
`[:#-]?`, giving the Tier-1 pattern `\bLote\s*([0-9]+...)\b`). -/
def loteTail (afterLote : List Char) (allowPunct : Bool) : Option (List Char) :=
  let afterWS := afterLote.dropWhile Char.isWhitespace
  let afterP :=
    if allowPunct then
      match afterWS with
      | c :: r => if c = ':' || c = '#' || c = '-' then r.dropWhile Char.isWhitespace else afterWS
      | [] => afterWS
    else afterWS
  let run := afterP.takeWhile isGroupChar
  match run with
  | [] => none
  | c :: _ =>
    if c.isDigit then shrinkToBoundary run ((afterP.drop run.length).head?) else none

/-- `re.search` of the lot-number pattern: scan for a `\b`-preceded
case-insensitive `Lote`, then try the tail; on failure resume at the next
input position. -/
def loteNumScan (allowPunct : Bool) : Option Char → List Char → Option String
  | _, [] => none
  | prev, c :: rest =>
    let boundary := match prev with
      | none => true
      | some pc => !isWordChar pc
    if boundary && ciHasPrefix "lote" (c :: rest) then
      match loteTail ((c :: rest).drop 4) allowPunct with
      | some grp => some ⟨grp⟩
      | none => loteNumScan allowPunct (some c) rest
    else loteNumScan allowPunct (some c) rest

/-- Tier-1 `re.search(r"\bLote\s*([0-9]+[a-zA-Z0-9\-\.]*)\b", s, re.I)`. -/
def loteNumSearch1 (s : String) : Option String := loteNumScan false none s.data

/-- Tier-2 `re.search(r"\bLote\s*[:#-]?\s*([0-9]+[a-zA-Z0-9\-\.]*)\b", s, re.I)`. -/
def loteNumSearch2 (s : String) : Option String := loteNumScan true none s.data

/-- `re.search(r"\blote\b", s, re.IGNORECASE)` as a Boolean. -/
def loteWordScan : Option Char → List Char → Bool
  | _, [] => false
  | prev, c :: rest =>
    let boundary := match prev with
      | none => true
      | some pc => !isWordChar pc
    if boundary && ciHasPrefix "lote" (c :: rest) &&
        (match ((c :: rest).drop 4).head? with
         | none => true
         | some n => !isWordChar n) then true
    else loteWordScan (some c) rest

def loteWordSearch (s : String) : Bool := loteWordScan none s.data

/-- `parsers.parse_year`: `re.search(r"\b(19\d{2}|20\d{2})\b", text)`. -/
def parseYearScan : Option Char → List Char → Option ℤ
  | _, [] => none
  | prev, c1 :: rest =>
    (match rest with
     | c2 :: c3 :: c4 :: tail =>
       let bBefore := match prev with
         | none => true
         | some pc => !isWordChar pc
       let bAfter := match tail.head? with
         | none => true
         | some nc => !isWordChar nc
       if bBefore && bAfter && c3.isDigit && c4.isDigit &&
           ((c1 = '1' && c2 = '9') || (c1 = '2' && c2 = '0')) then
         some ((if c1 = '1' then 1900 else 2000) + 10 * charDigit c3 + charDigit c4)
       else parseYearScan (some c1) rest
     | _ => none)

def parse_year (text : String) : Option ℤ :=
  if text = "" then none else parseYearScan none text.data

/-- `re.search(r"R\$\s*[0-9\.,]+", s)`, returning the matched text. -/
def rsSearch : List Char → Option String
  | [] => none
  | c :: rest =>
    if c = 'R' then
      match rest with
      | '$' :: tail =>
        let ws := tail.takeWhile Char.isWhitespace
        let num := (tail.dropWhile Char.isWhitespace).takeWhile
          (fun ch => ch.isDigit || ch = '.' || ch = ',')
        if num.isEmpty then rsSearch rest
        else some ⟨'R' :: '$' :: (ws ++ num)⟩
      | _ => rsSearch rest
    else rsSearch rest

/-- `re.search(r"/lotes/detalhes/\d+", onclick)`, returning the matched
text. -/
def detalhesSearch : List Char → Option String
  | [] => none
  | c :: rest =>
    if "/lotes/detalhes/".data.isPrefixOf (c :: rest) then
      let ds := ((c :: rest).drop 16).takeWhile Char.isDigit
      if ds.isEmpty then detalhesSearch rest else some ("/lotes/detalhes/" ++ ⟨ds⟩)
    else detalhesSearch rest

/-- Run-collapsing step of `re.sub(r"\W+", "-", s)`. -/
def subNonWordAux : Bool → List Char → List Char
  | _, [] => []
  | prevNW, c :: rest =>
    if !isWordChar c then
      if prevNW then subNonWordAux true rest
      else '-' :: subNonWordAux true rest
    else c :: subNonWordAux false rest

/-- `re.sub(r"\W+", "-", s).strip("-").lower()` — the deterministic slug
fallback for a missing lot id. -/
def slugify (s : String) : String :=
  let subbed := subNonWordAux false s.data
  pyLower ⟨((subbed.dropWhile (fun c => c = '-')).reverse.dropWhile (fun c => c = '-')).reverse⟩

/-- `re.sub(rf"\s*\b{year}\b\s*$", "", full).strip() or full`: drop a
trailing year token (with a word boundary before it), then strip; keep
the original on an empty result or no match. -/
def stripTrailingYear (full : String) (year : ℤ) : String :=
  let ys := (toString year).data
  let t1 := (full.data.reverse.dropWhile Char.isWhitespace).reverse
  let matched :=
    ys.isSuffixOf t1 &&
      (match (t1.take (t1.length - ys.length)).getLast? with
       | none => true
       | some pc => !isWordChar pc)
  let res := if matched then pyStrip ⟨t1.take (t1.length - ys.length)⟩ else pyStrip full
  if res = "" then full else res

/-- The `\b(encerramento|encerra)\b\s*[:\-]?\s*(.+)$` tail: skip
whitespace and an optional `:`/`-`; the group is the remainder (the input
is whitespace-normalized, so `.` restrictions and the all-whitespace
backtracking corner do not arise). -/
def encerraTail (cs0 : List Char) : Option String :=
  let afterWS := cs0.dropWhile Char.isWhitespace
  let afterP :=
    match afterWS with
    | c :: r => if c = ':' || c = '-' then r.dropWhile Char.isWhitespace else afterWS
    | [] => []
  match afterP with
  | [] => none
  | _ => some ⟨afterP⟩

/-- `re.search(r"\b(encerramento|encerra)\b\s*[:\-]?\s*(.+)$", text, re.I)`,
returning group 2 (alternatives tried left to right at each position). -/
def encerraScan : Option Char → List Char → Option String
  | _, [] => none
  | prev, c :: rest =>
    let boundary := match prev with
      | none => true
      | some pc => !isWordChar pc
    let after : ℕ → Option Char := fun n => ((c :: rest).drop n).head?
    let bAfter : Option Char → Bool := fun nc =>
      match nc with
      | none => true
      | some n => !isWordChar n
    let att1 : Option String :=
      if boundary && ciHasPrefix "encerramento" (c :: rest) && bAfter (after 12) then
        encerraTail ((c :: rest).drop 12)
      else none
    match att1 with
    | some g => some g
    | none =>
      let att2 : Option String :=
        if boundary && ciHasPrefix "encerra" (c :: rest) && bAfter (after 7) then
          encerraTail ((c :: rest).drop 7)
        else none
      match att2 with
      | some g => some g
      | none => encerraScan (some c) rest

def encerraSearch (s : String) : Option String := encerraScan none s.data

/-- `urllib.parse.urljoin` (external library), abstracted by a fixed
resolution scheme; no claim inspects a resolved URL. -/
def urljoin (base rel : String) : String :=
  if rel = "" then base
  else if "http".data.isPrefixOf rel.data then rel
  else base ++ "|" ++ rel

/-- The per-page dedup `uniq = {l.lot_id: l for l in lots}` /
`list(uniq.values())`: keys in first-appearance order, last value wins. -/
def addKey (acc : List String) (k : String) : List String :=
  if acc.contains k then acc else acc ++ [k]

def uniqueKeys (ks : List String) : List String := ks.foldl addKey []

def dedupByLotId (lots : List Lot) : List Lot :=
  (uniqueKeys (lots.map (fun l => l.lot_id))).filterMap
    (fun k => (lots.filter (fun l => l.lot_id = k)).getLast?)

/-- The Tier-1 card conversion: the body of the
`for card in site_cards` loop (lines 185–298 of `parsers.py`). -/
def tier1Lot (auction_id base : String) (card : HNode) : Lot :=
  let card_text := normText (getTextSep " " card)
  let card_id := pyStrip ((getAttr card "id").getD "")
  let lot_id0 : Option String := if card_id ≠ "" then some card_id else none
  let header_b := (selectUnder (selDivClass "card-body") (tagIs "b") false (childrenOf card)).head?
  let header_text : Option String := header_b.map (fun b => normText (getTextSep " " b))
  let m_lote_num := loteNumSearch1 (strOr header_text card_text)
  let spans := selectUnder2 (selDivClass "card-body") (tagIs "b") (tagIs "span")
    false false (childrenOf card)
  let situation0 : Option String :=
    if spans.length ≥ 2 then
      match spans.get? 1 with
      | some sp =>
        let s := normText (getTextSep " " sp)
        if s = "" then none else some s
      | none => none
    else none
  let situation : Option String :=
    match situation0 with
    | some s => some s
    | none =>
      let t_low := pyLower card_text
      ["sem reserva", "com reserva", "sucata", "recuperável", "recuperavel",
        "circula", "não circula", "nao circula"].find? (fun k => strIn k t_low)
  let bmCandidates := selectUnder2 (selDivClass "row") (selDivClasses ["col-12", "text-center"])
    (tagIs "b") false false (childrenOf card)
  let brand_model_full : Option String :=
    (bmCandidates.map (fun cand => normText (getTextSep " " cand))).find?
      (fun t => t ≠ "" && !loteWordSearch t)
  let year : Option ℤ :=
    match parse_year (brand_model_full.getD "") with
    | some y => some y
    | none => parse_year card_text
  let brand_model : Option String :=
    match brand_model_full with
    | none => none
    | some full =>
      match year with
      | some y => some (stripTrailingYear full y)
      | none => some full
  let start_bid0 : Option ℚ :=
    match lot_id0 with
    | some lid =>
      match (elemsOf card).find? (fun e => getAttr e "id" = some ("valor_atual_lote_" ++ lid)) with
      | some el => safe_float (some (normText (getTextSep " " el)))
      | none => none
    | none => none
  let start_bid : Option ℚ :=
    match start_bid0 with
    | some v => some v
    | none =>
      match rsSearch card_text.data with
      | some m2 => safe_float (some m2)
      | none => none
  let imgs := ((elemsOf card).filter (tagIs "img")).filterMap (fun img =>
    let src := pyStrip ((getAttr img "src").getD "")
    if src = "" then none else some (urljoin base src))
  let onclick : Option String :=
    ((elemsOf card).find? (fun e => tagIs "span" e && (getAttr e "onclick").isSome)).bind
      (fun sp => getAttr sp "onclick")
  let lot_url : Option String :=
    match onclick with
    | some oc => (detalhesSearch oc.data).map (fun m => urljoin base m)
    | none => none
  let requires_login := ((elemsOf card).filter (tagIs "a")).any (fun a =>
    let label := pyLower (normText (getTextSep " " a))
    let href := pyLower ((getAttr a "href").getD "")
    strIn "login obrigat" label || strIn "/ssc/login/login" href)
  let lot_id1 : Option String :=
    match lot_id0 with
    | some l => some l
    | none => m_lote_num
  let lot_id : String :=
    match lot_id1 with
    | some l => l
    | none =>
      let slug := slugify (pyTake (strOr header_text card_text) 60)
      if slug = "" then "unknown" else slug
  let description_short : String :=
    strOr header_text
      (match m_lote_num with
       | some m => "Lote " ++ m
       | none => card_text)
  { auction_id := auction_id
    lot_id := lot_id
    description_short := pyTake description_short 180
    brand_model := brand_model
    year := year
    situation := situation
    start_bid := start_bid
    ends_at := none
    lot_url := lot_url
    image_urls := imgs
    requires_login := requires_login
    raw_text := some card_text }

/-- Python `s.split("\n")` (all segments, empties included). -/
def splitOnNL : List Char → List Char → List String
  | acc, [] => [⟨acc.reverse⟩]
  | acc, c :: rest =>
    if c = '\n' then ⟨acc.reverse⟩ :: splitOnNL [] rest
    else splitOnNL (c :: acc) rest

/-- The situation vocabulary of the Tier-2 loop is a list of `re`
*patterns*; a match is searched case-insensitively and the raw pattern
string is stored as the situation. -/
def situationPatternMatches (k t : String) : Bool :=
  if k = "recuper[áa]vel" then strIn "recuperável" t || strIn "recuperavel" t
  else if k = "n[aã]o circula" then strIn "não circula" t || strIn "nao circula" t
  else strIn k t

/-- The Tier-2 (generic heuristic) card conversion: the body of the
fallback `for card in cards` loop (lines 305–374 of `parsers.py`).
`dtLoose` abstracts `parse_datetime_loose`'s `dateutil` call. -/
def tier2Lot (dtLoose : String → Option ℚ) (auction_id base : String) (card : HNode) : Lot :=
  let text := normText (getTextSep " " card)
  let requires_login := strIn "login" (pyLower text) && strIn "obrig" (pyLower text)
  let m := loteNumSearch2 text
  let lot_id : String :=
    match m with
    | some g => g
    | none =>
      let slug := slugify (pyTake text 60)
      if slug = "" then "unknown" else slug
  let year := parse_year text
  let t_low := pyLower text
  let situation : Option String :=
    ["sem reserva", "com reserva", "sucata", "recuper[áa]vel", "circula",
      "n[aã]o circula"].find? (fun k => situationPatternMatches k t_low)
  let start_bid : Option ℚ :=
    match rsSearch text.data with
    | some m2 => safe_float (some m2)
    | none => none
  let ends_at : Option ℚ :=
    match encerraSearch text with
    | some g => if g = "" then none else dtLoose g
    | none => none
  let lines := ((splitOnNL [] (getTextSep "\n" card).data).map normText).filter
    (fun x => x ≠ "")
  let brand_model : Option String :=
    (lines.take 6).find? (fun ln =>
      !loteWordSearch ln && (rsSearch ln.data).isNone &&
        !strIn "encerr" (pyLower ln) && ln.length ≥ 3)
  let imgs := ((elemsOf card).filter (tagIs "img")).filterMap (fun img =>
    (getAttr img "src").bind (fun src =>
      if src = "" then none else some (urljoin base src)))
  let link : Option String :=
    ((elemsOf card).filter (tagIs "a")).findSome? (fun a =>
      match getAttr a "href" with
      | some href =>
        if href ≠ "" && (strIn "lote" (pyLower href) ||
            strIn "detal" (pyLower (getTextSep " " a))) then
          some (urljoin base href)
        else none
      | none => none)
  { auction_id := auction_id
    lot_id := lot_id
    description_short := if text.length > 0 then pyTake text 180 else "(sem descrição)"
    brand_model := brand_model
    year := year
    situation := situation
    start_bid := start_bid
    ends_at := ends_at
    lot_url := link
    image_urls := imgs
    requires_login := requires_login
    raw_text := some text }

/-- The shared body reached from the first outer-loop iteration that
mentions "lote" (lines 178–379): re-parse, prefer the structural
`div.card.listaLotes` tier, otherwise run the generic heuristic tier;
both end in the per-page id dedup and `return`. -/
def parseLotCardsBody (dtLoose : String → Option ℚ) (doc : List HNode)
    (auction_id page_url : String) : List Lot :=
  let base := page_url
  let site_cards := (elemsForest doc).filter
    (fun e => tagIs "div" e && hasClass e "card" && hasClass e "listaLotes")
  if !site_cards.isEmpty then
    dedupByLotId (site_cards.map (tier1Lot auction_id base))
  else
    let cards := (elemsForest doc).filter (fun e => tagIs "div" e || tagIs "article" e)
    let lots := cards.filterMap (fun card =>
      let text := normText (getTextSep " " card)
      if text = "" || !strIn "lote" (pyLower text) then none
      else some (tier2Lot dtLoose auction_id base card))
    dedupByLotId lots

/-- `parsers.parse_lot_cards_from_html`.  Both `return` statements sit
inside the outer `for card in cards` loop, whose body only runs for a
card whose text mentions "lote"; when no `div`/`article` card does, the
Python function falls off its end and implicitly returns `None` —
modelled by the `Option` result. -/
def parse_lot_cards_from_html (dtLoose : String → Option ℚ) (doc : List HNode)
    (auction_id page_url : String) : Option (List Lot) :=
  let cards := (elemsForest doc).filter (fun e => tagIs "div" e || tagIs "article" e)
  if cards.any (fun card =>
      let t := normText (getTextSep " " card)
      t ≠ "" && strIn "lote" (pyLower t)) then
    some (parseLotCardsBody dtLoose doc auction_id page_url)
  else none

/-! ## Concrete inputs used by claim theorems and witnesses -/

/-- A date parser declining everything (any instantiation works for the
claims below). -/
def dtNone : String → Option ℚ := fun _ => none

/-- A structural (`div.card.listaLotes`) lot card with no container id:
header label inside `div.card-body > b > span`, a price paragraph. -/
def mkCard (label price : String) : HNode :=
  .elem "div" [("class", "card listaLotes")]
    [.elem "div" [("class", "card-body")]
      [.elem "b" [] [.elem "span" [] [.text label]],
       .elem "p" [] [.text price]]]

def doc1 : List HNode := [mkCard "Lote 123" "R$ 10", mkCard "Lote 123A" "R$ 20"]

def doc2 : List HNode := [mkCard "Lote 123" "R$ 10", mkCard "Lote 123-A" "R$ 20"]

/-- The same collision scenario on plain cards (Tier-2 path). -/
def doc3 : List HNode :=
  [.elem "div" [] [.text "Lote 123 R$ 10"], .elem "div" [] [.text "Lote 123A R$ 20"]]

/-- A payload whose only candidate's first item has an id-like key and no
description-like key. -/
def jsonIdOnly : Json := .obj [("items", .arr [.obj [("id", .int 1)]])]

def descOnlyItems : List Json := [.obj [("descricao", .str "x")]]

def fooItems : List Json := [.obj [("foo", .str "x")]]

def hondaCivic : Lot := { auction_id := "a", lot_id := "1", description_short := "Honda Civic 2018" }

def hondaFit : Lot := { auction_id := "a", lot_id := "2", description_short := "Honda Fit 2018" }

def loginLot : Lot := { auction_id := "a", lot_id := "3", description_short := "x", requires_login := true }

def kwCfg : FiltersConfig := { descricao_keywords_all := some ["honda", "civic"] }

/-- An auction whose `status` is set — to the empty string. -/
def cexAuction : Auction := { auction_id := "a", url := "u", status := some "" }

def fnSucceeds3rd : ℕ → Except ℕ ℕ := fun i => if i < 3 then .error i else .ok 42

def fnAlwaysFails : ℕ → Except ℕ ℕ := fun i => .error i

def errId : ℕ → ℕ := fun i => i

/-- A page-1 payload yielding one lot. -/
def goodBody : Json := .obj [("items", .arr [.obj [("id", .int 1)]])]

/-- A payload yielding no lots and no recognized total page count. -/
def emptyBody : Json := .obj []

/-- A payload with a recognized total page count of 5. -/
def bodyTot : Json := .obj [("totalPages", .int 5)]

def bodyA : ℤ → Json := fun q => if q < 4 then goodBody else emptyBody

def fetchA : ℤ → FetchRes := fun q => .resp 200 (some (bodyA q))

def bodyB : ℤ → Json := fun q => if q = 3 then emptyBody else goodBody

def fetchB : ℤ → FetchRes := fun q => .resp 200 (some (bodyB q))

def st0Api : ApiSt := ⟨[], ∅, []⟩

/-- A page with one `div` card mentioning no "lote" at all. -/
def docNoLote : List HNode := [.elem "div" [] [.text "nothing here"]]

/-- A partially filled auction (for the frame-property witness). -/
def witAuction : Auction :=
  { auction_id := "a", url := "u", number := some "7", yard := some "Y",
    status := some "S", ends_at := some 5 }

/-! ## Theorems -/

/-- C6: if `RobotsPolicy.load()` fails (any exception — the `except`
branch, modelled by outcome `none`), `can_fetch` returns true for every
URL afterwards, and the same holds in the never-loaded initial state:
both are observationally "allow all". -/
theorem robots_fail_open :
    ∀ (pol : RobotsPolicy) (url : String),
      (RobotsPolicy.load pol none).can_fetch url = true ∧
      RobotsPolicy.init.can_fetch url = true := by
  intro pol url
  exact ⟨rfl, rfl⟩

/-- C9: `RateLimiter.wait()` with `rate_per_sec ≤ 0` returns immediately
(sleep 0) with no state change; with a positive rate and a nonnegative
monotonic clock it sleeps `max 0 (next_allowed_at - now)` and sets
`next_allowed_at` to `max next_allowed_at now + 1/rate`, so the call
following an arbitrarily long idle period is still scheduled at least
`1/rate` after this one (no banked credit). -/
theorem rate_limiter_wait_behavior :
    ∀ (rl : RateLimiter) (now : ℚ),
      (rl.rate_per_sec ≤ 0 → rl.wait now = (0, rl)) ∧
      (0 < rl.rate_per_sec → 0 ≤ now →
        (rl.wait now).1 = max 0 (rl.next_allowed_at - now) ∧
        (rl.wait now).2.next_allowed_at = max rl.next_allowed_at now + 1 / rl.rate_per_sec ∧
        (rl.wait now).2.rate_per_sec = rl.rate_per_sec ∧
        now + 1 / rl.rate_per_sec ≤ (rl.wait now).2.next_allowed_at) := by
  intro rl now
  constructor
  · intro h
    simp [RateLimiter.wait, h]
  · intro hpos hnow
    have hneg : ¬rl.rate_per_sec ≤ 0 := not_le.mpr hpos
    have hw : rl.wait now =
        (max 0 ((if rl.next_allowed_at = 0 then now else rl.next_allowed_at) - now),
         ⟨rl.rate_per_sec,
          max (if rl.next_allowed_at = 0 then now else rl.next_allowed_at) now +
            1 / rl.rate_per_sec⟩) := by
      simp only [RateLimiter.wait, if_neg hneg]
    by_cases h0 : rl.next_allowed_at = 0
    · rw [hw, if_pos h0, h0]
      refine ⟨?_, ?_, rfl, ?_⟩
      · show max 0 (now - now) = max 0 (0 - now)
        rw [sub_self, max_self, zero_sub]
        exact (max_eq_left (neg_nonpos.mpr hnow)).symm
      · show max now now + 1 / rl.rate_per_sec = max 0 now + 1 / rl.rate_per_sec
        rw [max_self, max_eq_right hnow]
      · show now + 1 / rl.rate_per_sec ≤ max now now + 1 / rl.rate_per_sec
        rw [max_self]
    · rw [hw, if_neg h0]
      refine ⟨rfl, rfl, rfl, ?_⟩
      show now + 1 / rl.rate_per_sec ≤ max rl.next_allowed_at now + 1 / rl.rate_per_sec
      have h1 : now ≤ max rl.next_allowed_at now := le_max_right _ _
      linarith

/-- C9 witness: the theorem at `rl = ⟨2, 5⟩`, `now = 3` (and the disabled
case at rate 0). -/
theorem rate_limiter_wait_behavior_witness :
    ((⟨0, 5⟩ : RateLimiter).wait 3 = (0, ⟨0, 5⟩)) ∧
    ((⟨2, 5⟩ : RateLimiter).wait 3).1 = max 0 ((5 : ℚ) - 3) ∧
    ((⟨2, 5⟩ : RateLimiter).wait 3).2.next_allowed_at = max (5 : ℚ) 3 + 1 / 2 ∧
    (3 : ℚ) + 1 / 2 ≤ ((⟨2, 5⟩ : RateLimiter).wait 3).2.next_allowed_at := by
  have h0 := (rate_limiter_wait_behavior ⟨0, 5⟩ 3).1 (by norm_num)
  have h := (rate_limiter_wait_behavior ⟨2, 5⟩ 3).2 (by norm_num) (by norm_num)
  exact ⟨h0, h.1, h.2.1, h.2.2.2⟩

/-- `lookupPages` after `markAux`: the marked auction's set gains the
page; every other auction's entry is untouched. -/
theorem lookupPages_markAux (l : List (String × Finset ℤ)) (b : String) (q : ℤ) (e : String) :
    lookupPages (markAux l b q) e =
      if b = e then some (insert q ((lookupPages l e).getD ∅)) else lookupPages l e := by
  induction l with
  | nil =>
    by_cases h : b = e <;> simp [markAux, lookupPages, h]
  | cons kv rest ih =>
    obtain ⟨k, s⟩ := kv
    simp only [markAux]
    by_cases hkb : k = b
    · rw [if_pos hkb]
      by_cases hke : k = e
      · have hbe : b = e := hkb.symm.trans hke
        rw [if_pos hbe]
        simp only [lookupPages, if_pos hke, Option.getD_some]
      · have hbe : ¬b = e := fun h => hke (hkb.trans h)
        rw [if_neg hbe]
        simp only [lookupPages, if_neg hke]
    · rw [if_neg hkb]
      by_cases hke : k = e
      · have hbe : ¬b = e := fun h => hkb (hke.trans h.symm)
        rw [if_neg hbe]
        simp only [lookupPages, if_pos hke]
      · simp only [lookupPages, if_neg hke]
        exact ih

/-- C4: `save()` followed by `load()` restores `pages_done` exactly (for
every state); `mark_page_done` is idempotent; and `is_page_done` is false
for every (auction, page) pair never marked in a run that starts from the
empty state `load()` yields for a missing file. -/
theorem checkpoint_roundtrip_idem_unmarked :
    (∀ st : CrawlCheckpoint, loadData (saveData st) = st) ∧
    (∀ (st : CrawlCheckpoint) (e : String) (p : ℤ),
      mark_page_done (mark_page_done st e p) e p = mark_page_done st e p) ∧
    (∀ (ops : List (String × ℤ)) (e : String) (p : ℤ),
      (e, p) ∉ ops → is_page_done (applyMarks ops) e p = false) := by
  refine ⟨?_, ?_, ?_⟩
  · intro st
    obtain ⟨l⟩ := st
    simp only [saveData, loadData, List.map_map, CrawlCheckpoint.mk.injEq]
    induction l with
    | nil => rfl
    | cons kv rest ih =>
      obtain ⟨k, s⟩ := kv
      simp [ih, Finset.sort_toFinset]
  · intro st e p
    obtain ⟨l⟩ := st
    simp only [mark_page_done, CrawlCheckpoint.mk.injEq]
    induction l with
    | nil => simp [markAux]
    | cons kv rest ih =>
      obtain ⟨k, s⟩ := kv
      by_cases hk : k = e
      · simp [markAux, hk, Finset.insert_idem]
      · simp [markAux, hk, ih]
  · intro ops e p hne
    have general : ∀ (l : List (String × ℤ)) (st : CrawlCheckpoint),
        is_page_done st e p = false → (e, p) ∉ l →
        is_page_done (l.foldl (fun st op => mark_page_done st op.1 op.2) st) e p = false := by
      intro l
      induction l with
      | nil => intro st h _; exact h
      | cons op rest ih =>
        intro st h hmem
        obtain ⟨b, q⟩ := op
        have hnotin : (e, p) ∉ rest := fun hc => hmem (List.mem_cons_of_mem _ hc)
        have hne2 : ¬(b = e ∧ q = p) := by
          intro ⟨h1, h2⟩
          exact hmem (by simp [h1, h2])
        apply ih _ _ hnotin
        simp only [is_page_done, mark_page_done, decide_eq_false_iff_not] at h ⊢
        simp only [lookupPages_markAux]
        by_cases hb : b = e
        · simp only [if_pos hb, Option.getD_some, Finset.mem_insert]
          have hq : ¬p = q := fun hq => hne2 ⟨hb, hq.symm⟩
          rintro (hc | hc)
          · exact hq hc
          · exact h hc
        · simp only [if_neg hb]
          exact h
    exact general ops ⟨[]⟩ (by simp [is_page_done, applyMarks, lookupPages]) hne

/-- C4 witness: the round-trip, idempotence and an unmarked pair, at
concrete states. -/
theorem checkpoint_roundtrip_idem_unmarked_witness :
    loadData (saveData ⟨[("a", {1, 3}), ("b", {2})]⟩) = ⟨[("a", {1, 3}), ("b", {2})]⟩ ∧
    mark_page_done (mark_page_done ⟨[("a", {1})]⟩ "c" 7) "c" 7 = mark_page_done ⟨[("a", {1})]⟩ "c" 7 ∧
    is_page_done (applyMarks [("a", 2), ("b", 1)]) "a" 1 = false := by
  refine ⟨checkpoint_roundtrip_idem_unmarked.1 _,
    checkpoint_roundtrip_idem_unmarked.2.1 _ _ _,
    checkpoint_roundtrip_idem_unmarked.2.2 [("a", 2), ("b", 1)] "a" 1 (by decide)⟩

/-- Run lemma for `retryAux`: with retryable failures up to attempt `k`
and a success at `k ≤ max_attempts`, the loop returns the success value
after `k - attempt + 1` further invocations. -/
theorem retryAux_value {ε τ : Type} (fn : ℕ → Except ε τ) (p : ε → Bool)
    (err : ℕ → ε) (maxA k : ℕ) (t : τ) :
    ∀ fuel attempt, attempt + fuel = maxA + 1 → attempt ≤ k → k ≤ maxA →
      (∀ i, attempt ≤ i → i < k → fn i = .error (err i) ∧ p (err i) = true) →
      fn k = .ok t →
      retryAux fn p maxA attempt fuel = (.value t, k - attempt + 1) := by
  intro fuel
  induction fuel with
  | zero => intro attempt h1 h2 h3 _ _; omega
  | succ n ih =>
    intro attempt h1 h2 h3 hfail hok
    by_cases hk : attempt = k
    · subst hk
      simp [retryAux, hok]
    · have hlt : attempt < k := lt_of_le_of_ne h2 hk
      obtain ⟨he, hp⟩ := hfail attempt le_rfl hlt
      have hcond : ¬(maxA ≤ attempt || !p (err attempt)) = true := by
        simp [hp]
        omega
      have hrec := ih (attempt + 1) (by omega) (by omega) h3
        (fun i hi1 hi2 => hfail i (by omega) hi2) hok
      simp only [retryAux, he, if_neg hcond, hrec]
      have : k - (attempt + 1) + 1 + 1 = k - attempt + 1 := by omega
      rw [this]

/-- Run lemma for `retryAux`: with every invocation failing retryably,
the loop raises the error of attempt `max_attempts` after exhausting the
remaining attempts. -/
theorem retryAux_exhaust {ε τ : Type} (fn : ℕ → Except ε τ) (p : ε → Bool)
    (err : ℕ → ε) (maxA : ℕ)
    (hfail : ∀ i, fn i = .error (err i)) (hp : ∀ i, p (err i) = true) :
    ∀ fuel attempt, attempt + fuel = maxA + 1 → 1 ≤ attempt → attempt ≤ maxA →
      retryAux fn p maxA attempt fuel =
        ((.raised (err maxA) : RetryResult ε τ), maxA - attempt + 1) := by
  intro fuel
  induction fuel with
  | zero => intro attempt h1 h2 h3; omega
  | succ n ih =>
    intro attempt h1 h2 h3
    by_cases hm : attempt = maxA
    · subst hm
      have hcond : (attempt ≤ attempt || !p (err attempt)) = true := by simp
      simp [retryAux, hfail attempt, hcond]
    · have hlt : attempt < maxA := lt_of_le_of_ne h3 hm
      have hcond : ¬(maxA ≤ attempt || !p (err attempt)) = true := by
        simp [hp attempt]
        omega
      have hrec := ih (attempt + 1) (by omega) (by omega) (by omega)
      simp only [retryAux, hfail attempt, if_neg hcond, hrec]
      have : maxA - (attempt + 1) + 1 + 1 = maxA - attempt + 1 := by omega
      rw [this]

/-- Run lemma for `retryAux`: a failure that `should_retry` rejects is
re-raised at once, with no further invocation. -/
theorem retryAux_noRetry {ε τ : Type} (fn : ℕ → Except ε τ) (p : ε → Bool)
    (err : ℕ → ε) (maxA j : ℕ) (e : ε) :
    ∀ fuel attempt, attempt + fuel = maxA + 1 → attempt ≤ j → j ≤ maxA →
      (∀ i, attempt ≤ i → i < j → fn i = .error (err i) ∧ p (err i) = true) →
      fn j = .error e → p e = false →
      retryAux fn p maxA attempt fuel = (.raised e, j - attempt + 1) := by
  intro fuel
  induction fuel with
  | zero => intro attempt h1 h2 h3 _ _ _; omega
  | succ n ih =>
    intro attempt h1 h2 h3 hfail hj hpe
    by_cases hk : attempt = j
    · subst hk
      have hcond : (maxA ≤ attempt || !p e) = true := by simp [hpe]
      simp [retryAux, hj, hcond]
    · have hlt : attempt < j := lt_of_le_of_ne h2 hk
      obtain ⟨he, hp⟩ := hfail attempt le_rfl hlt
      have hcond : ¬(maxA ≤ attempt || !p (err attempt)) = true := by
        simp [hp]
        omega
      have hrec := ih (attempt + 1) (by omega) (by omega) h3
        (fun i hi1 hi2 => hfail i (by omega) hi2) hj hpe
      simp only [retryAux, he, if_neg hcond, hrec]
      have : j - (attempt + 1) + 1 + 1 = j - attempt + 1 := by omega
      rw [this]

/-- C3: `retry_call` returns the success value after exactly `k`
invocations when the first `k-1` calls fail retryably and call `k`
succeeds (`k ≤ max_attempts`); raises the last observed error after
exactly `max_attempts` invocations when every call fails retryably; and
re-raises a non-retryable error immediately, after exactly the
invocations made so far and none after it. -/
theorem retry_call_invocation_counts :
    (∀ (ε τ : Type) (fn : ℕ → Except ε τ) (p : ε → Bool) (err : ℕ → ε)
        (maxA k : ℕ) (t : τ),
      1 ≤ k → k ≤ maxA →
      (∀ i, 1 ≤ i → i < k → fn i = .error (err i) ∧ p (err i) = true) →
      fn k = .ok t →
      retry_call fn maxA p = (.value t, k)) ∧
    (∀ (ε τ : Type) (fn : ℕ → Except ε τ) (p : ε → Bool) (err : ℕ → ε) (maxA : ℕ),
      1 ≤ maxA →
      (∀ i, fn i = .error (err i)) → (∀ i, p (err i) = true) →
      retry_call fn maxA p = ((.raised (err maxA) : RetryResult ε τ), maxA)) ∧
    (∀ (ε τ : Type) (fn : ℕ → Except ε τ) (p : ε → Bool) (err : ℕ → ε)
        (maxA j : ℕ) (e : ε),
      1 ≤ j → j ≤ maxA →
      (∀ i, 1 ≤ i → i < j → fn i = .error (err i) ∧ p (err i) = true) →
      fn j = .error e → p e = false →
      retry_call fn maxA p = (.raised e, j)) := by
  refine ⟨?_, ?_, ?_⟩
  · intro ε τ fn p err maxA k t h1 h2 hfail hok
    have := retryAux_value fn p err maxA k t maxA 1 (by omega) h1 h2 hfail hok
    rw [retry_call, this]
    have : k - 1 + 1 = k := by omega
    rw [this]
  · intro ε τ fn p err maxA h1 hfail hp
    have := retryAux_exhaust fn p err maxA hfail hp maxA 1 (by omega) le_rfl h1
    rw [retry_call, this]
    have : maxA - 1 + 1 = maxA := by omega
    rw [this]
  · intro ε τ fn p err maxA j e h1 h2 hfail hj hpe
    have := retryAux_noRetry fn p err maxA j e maxA 1 (by omega) h1 h2 hfail hj hpe
    rw [retry_call, this]
    have : j - 1 + 1 = j := by omega
    rw [this]

/-- C3 witness: the theorem at a function succeeding on its third call
(`max_attempts = 4`), an always-failing function (`max_attempts = 3`),
and a non-retryable first failure. -/
theorem retry_call_invocation_counts_witness :
    retry_call fnSucceeds3rd 4 (fun _ => true) = (.value 42, 3) ∧
    retry_call fnAlwaysFails 3 (fun _ => true) = (.raised 3, 3) ∧
    retry_call fnAlwaysFails 3 (fun _ => false) = (.raised 1, 1) := by
  refine ⟨?_, ?_, ?_⟩
  · exact retry_call_invocation_counts.1 ℕ ℕ fnSucceeds3rd (fun _ => true) errId 4 3 42
      (by decide) (by decide)
      (fun i h1 h2 => by
        have : i = 1 ∨ i = 2 := by omega
        rcases this with h | h <;> subst h <;> exact ⟨rfl, rfl⟩)
      rfl
  · exact retry_call_invocation_counts.2.1 ℕ ℕ fnAlwaysFails (fun _ => true) errId 3
      (by decide) (fun i => rfl) (fun i => rfl)
  · exact retry_call_invocation_counts.2.2 ℕ ℕ fnAlwaysFails (fun _ => false) errId 3 1 1
      (by decide) (by decide)
      (fun i h1 h2 => by omega)
      rfl rfl

/-- C10: when no `div`/`article` element's text contains "lote"
(case-insensitively) — including the empty document — both `return`
statements of `parse_lot_cards_from_html` are skipped (they sit inside
the outer per-card loop) and the function returns `None`, not an empty
list; a caller iterating the result directly would fail on such pages. -/
theorem parse_lot_cards_none_without_lote :
    ∀ (dtLoose : String → Option ℚ) (doc : List HNode) (aid purl : String),
      (∀ card ∈ (elemsForest doc).filter (fun e => tagIs "div" e || tagIs "article" e),
        strIn "lote" (pyLower (normText (getTextSep " " card))) = false) →
      parse_lot_cards_from_html dtLoose doc aid purl = none ∧
      parse_lot_cards_from_html dtLoose doc aid purl ≠ some [] := by
  intro dt doc aid purl h
  have hnone : parse_lot_cards_from_html dt doc aid purl = none := by
    simp only [parse_lot_cards_from_html]
    rw [if_neg]
    intro hc
    rw [List.any_eq_true] at hc
    obtain ⟨card, hmem, hp⟩ := hc
    have hfalse := h card hmem
    simp only [Bool.and_eq_true] at hp
    rw [hfalse] at hp
    exact Bool.false_ne_true hp.2
  exact ⟨hnone, by rw [hnone]; exact fun hc => Option.noConfusion hc⟩

/-- C10 witness: the theorem at the empty document and at a page whose
only card does not mention "lote". -/
theorem parse_lot_cards_none_without_lote_witness :
    parse_lot_cards_from_html dtNone [] "a" "u" = none ∧
    parse_lot_cards_from_html dtNone docNoLote "a" "u" = none := by
  exact ⟨(parse_lot_cards_none_without_lote dtNone [] "a" "u" (by decide)).1,
    (parse_lot_cards_none_without_lote dtNone docNoLote "a" "u" (by decide)).1⟩

/-- C7: a page with one card labeled "Lote 123" and another "Lote 123A"
(resp. "Lote 123-A"), none carrying a container id, yields two records
with distinct lot ids — "123" and the suffixed one — both on the
structural tier (`doc1`/`doc2`) and on the heuristic tier (`doc3`); the
per-page dedup never collapses them. -/
theorem lot_id_collision_preserved :
    (parse_lot_cards_from_html dtNone doc1 "test" "http://example.com").map
      (List.map Lot.lot_id) = some ["123", "123A"] ∧
    (parse_lot_cards_from_html dtNone doc2 "test" "http://example.com").map
      (List.map Lot.lot_id) = some ["123", "123-A"] ∧
    (parse_lot_cards_from_html dtNone doc3 "test" "http://example.com").map
      (List.map Lot.lot_id) = some ["123", "123A"] := by
  refine ⟨?_, ?_, ?_⟩ <;> decide

/-- `if c then false else r` is `!c && r`. -/
theorem ite_false_chain (c r p : Bool) (h : r = p) : (if c = true then false else r) = (!c && p) := by
  cases c <;> simp [h]

/-- Criterion 3 as the negation of its rejection condition. -/
theorem passesTipo_not (cfg : FiltersConfig) (lot : Lot) :
    passesTipo cfg lot =
      !(truthyStr cfg.tipo_veiculo &&
        ((pyNormOpt cfg.tipo_veiculo = "moto" && !(strIn "moto" (lotDesc lot))) ||
         (pyNormOpt cfg.tipo_veiculo = "carro" &&
           (["moto", "motocic"].any (fun k => strIn k (lotDesc lot)))))) := by
  unfold passesTipo
  cases truthyStr cfg.tipo_veiculo
  · simp
  · cases h1 : (pyNormOpt cfg.tipo_veiculo = "moto" && !(strIn "moto" (lotDesc lot))) <;>
      cases h2 : (pyNormOpt cfg.tipo_veiculo = "carro" &&
        (["moto", "motocic"].any (fun k => strIn k (lotDesc lot)))) <;>
      simp [h1, h2]

/-- Criterion 4 as the negation of its rejection condition. -/
theorem passesMarcas_not (cfg : FiltersConfig) (lot : Lot) :
    passesMarcas cfg lot =
      !(truthyList cfg.marcas_permitidas &&
        (normKeywords cfg.marcas_permitidas ≠ [] &&
         !((normKeywords cfg.marcas_permitidas).any (fun a => strIn a (lotBm lot))))) := by
  unfold passesMarcas
  cases truthyList cfg.marcas_permitidas
  · simp
  · cases h1 : (decide (normKeywords cfg.marcas_permitidas ≠ []) &&
        !((normKeywords cfg.marcas_permitidas).any (fun a => strIn a (lotBm lot)))) <;>
      simp [h1]

/-- Criterion 5 as the negation of its rejection condition. -/
theorem passesAnoMin_not (cfg : FiltersConfig) (lot : Lot) :
    passesAnoMin cfg lot =
      !(match cfg.ano_min, lot.year with
        | some lo, some y => decide (y < lo)
        | _, _ => false) := by
  unfold passesAnoMin
  cases cfg.ano_min <;> cases lot.year <;> simp

/-- Criterion 6 as the negation of its rejection condition. -/
theorem passesAnoMax_not (cfg : FiltersConfig) (lot : Lot) :
    passesAnoMax cfg lot =
      !(match cfg.ano_max, lot.year with
        | some hi, some y => decide (y > hi)
        | _, _ => false) := by
  unfold passesAnoMax
  cases cfg.ano_max <;> cases lot.year <;> simp

/-- Criterion 7 as the negation of its rejection condition. -/
theorem passesValor_not (cfg : FiltersConfig) (lot : Lot) :
    passesValor cfg lot =
      !(match cfg.valor_max, lot.start_bid with
        | some vmax, some b => decide (b > vmax)
        | _, _ => false) := by
  unfold passesValor
  cases cfg.valor_max <;> cases lot.start_bid <;> simp

/-- Criterion 8 as the negation of its rejection condition. -/
theorem passesKwAll_not (cfg : FiltersConfig) (lot : Lot) :
    passesKwAll cfg lot =
      !(truthyList cfg.descricao_keywords_all &&
        ((normKeywords cfg.descricao_keywords_all).any
          (fun k => !(strIn k (lotDesc lot))))) := by
  unfold passesKwAll
  cases truthyList cfg.descricao_keywords_all
  · simp
  · cases h1 : (normKeywords cfg.descricao_keywords_all).any
        (fun k => !(strIn k (lotDesc lot))) <;> simp [h1]

/-- Criterion 9 as the negation of its rejection condition. -/
theorem passesKwAny_not (cfg : FiltersConfig) (lot : Lot) :
    passesKwAny cfg lot =
      !(truthyList cfg.descricao_keywords_any &&
        (normKeywords cfg.descricao_keywords_any ≠ [] &&
         !((normKeywords cfg.descricao_keywords_any).any
           (fun k => strIn k (lotDesc lot))))) := by
  unfold passesKwAny
  cases truthyList cfg.descricao_keywords_any
  · simp
  · cases h1 : (decide (normKeywords cfg.descricao_keywords_any ≠ []) &&
        !((normKeywords cfg.descricao_keywords_any).any
          (fun k => strIn k (lotDesc lot)))) <;> simp [h1]

/-- C8: `FilterEngine.accept` is the conjunction of its nine criteria —
true iff every configured criterion passes; each unconfigured criterion
passes on every lot; a login-required lot is rejected whenever
`ignore_requires_login` is set; and with
`descricao_keywords_all = ["honda", "civic"]` the description
"Honda Civic 2018" is accepted while "Honda Fit 2018" is rejected
(matching case-insensitive). -/
theorem filter_accept_conjunction :
    ∀ (cfg : FiltersConfig) (lot : Lot),
      (accept cfg lot =
        (passesLogin cfg lot && (passesSucata cfg lot && (passesTipo cfg lot &&
         (passesMarcas cfg lot && (passesAnoMin cfg lot && (passesAnoMax cfg lot &&
         (passesValor cfg lot && (passesKwAll cfg lot && passesKwAny cfg lot))))))))) ∧
      passesTipo { cfg with tipo_veiculo := none } lot = true ∧
      passesMarcas { cfg with marcas_permitidas := none } lot = true ∧
      passesAnoMin { cfg with ano_min := none } lot = true ∧
      passesAnoMax { cfg with ano_max := none } lot = true ∧
      passesValor { cfg with valor_max := none } lot = true ∧
      passesKwAll { cfg with descricao_keywords_all := none } lot = true ∧
      passesKwAny { cfg with descricao_keywords_any := none } lot = true ∧
      accept { cfg with ignore_requires_login := true }
        { lot with requires_login := true } = false ∧
      accept kwCfg hondaCivic = true ∧
      accept kwCfg hondaFit = false := by
  intro cfg lot
  refine ⟨?_, rfl, rfl, ?_, ?_, ?_, rfl, rfl, rfl, by decide, by decide⟩
  · rw [passesTipo_not, passesMarcas_not, passesAnoMin_not, passesAnoMax_not,
      passesValor_not, passesKwAll_not, passesKwAny_not]
    unfold accept
    refine ite_false_chain _ _ _ ?_
    refine ite_false_chain _ _ _ ?_
    refine ite_false_chain _ _ _ ?_
    refine ite_false_chain _ _ _ ?_
    refine ite_false_chain _ _ _ ?_
    refine ite_false_chain _ _ _ ?_
    refine ite_false_chain _ _ _ ?_
    refine ite_false_chain _ _ _ ?_
    cases h : truthyList cfg.descricao_keywords_any &&
        (decide (normKeywords cfg.descricao_keywords_any ≠ []) &&
         !((normKeywords cfg.descricao_keywords_any).any
           (fun k => strIn k (lotDesc lot)))) <;> simp [h]
  · unfold passesAnoMin
    cases lot.year <;> rfl
  · unfold passesAnoMax
    cases lot.year <;> rfl
  · unfold passesValor
    cases lot.start_bid <;> rfl

/-- C5 (amended): `parse_auction_details_from_html` keeps `auction_id`
and `url` unchanged; a field set to a *non-empty* value (for `ends_at`:
set at all) is preserved exactly; an absent field is filled with the
parsed value.  (A string field set to `""` is falsy under the Python
`or` and is *not* preserved — see the counterexample.) -/
theorem auction_enrich_fill_absent_amended :
    ∀ (text : String) (gN gC gY gO : Option String) (gE : Option ℚ) (a : Auction),
      (parse_auction_details_from_html text gN gC gY gO gE a).auction_id = a.auction_id ∧
      (parse_auction_details_from_html text gN gC gY gO gE a).url = a.url ∧
      (∀ s, a.number = some s → s ≠ "" →
        (parse_auction_details_from_html text gN gC gY gO gE a).number = some s) ∧
      (a.number = none →
        (parse_auction_details_from_html text gN gC gY gO gE a).number = gN) ∧
      (∀ s, a.city = some s → s ≠ "" →
        (parse_auction_details_from_html text gN gC gY gO gE a).city = some s) ∧
      (a.city = none →
        (parse_auction_details_from_html text gN gC gY gO gE a).city = gC) ∧
      (∀ s, a.yard = some s → s ≠ "" →
        (parse_auction_details_from_html text gN gC gY gO gE a).yard = some s) ∧
      (a.yard = none →
        (parse_auction_details_from_html text gN gC gY gO gE a).yard = gY) ∧
      (∀ s, a.organizer = some s → s ≠ "" →
        (parse_auction_details_from_html text gN gC gY gO gE a).organizer = some s) ∧
      (a.organizer = none →
        (parse_auction_details_from_html text gN gC gY gO gE a).organizer = gO) ∧
      (∀ s, a.status = some s → s ≠ "" →
        (parse_auction_details_from_html text gN gC gY gO gE a).status = some s) ∧
      (a.status = none →
        (parse_auction_details_from_html text gN gC gY gO gE a).status = guessStatus text) ∧
      (∀ d, a.ends_at = some d →
        (parse_auction_details_from_html text gN gC gY gO gE a).ends_at = some d) ∧
      (a.ends_at = none →
        (parse_auction_details_from_html text gN gC gY gO gE a).ends_at = gE) := by
  intro text gN gC gY gO gE a
  refine ⟨rfl, rfl, ?_, ?_, ?_, ?_, ?_, ?_, ?_, ?_, ?_, ?_, ?_, ?_⟩ <;>
    intros <;> simp_all [parse_auction_details_from_html, pyOrStr]

/-- C5 counterexample: an auction whose `status` is set (to `""`) is
returned with a freshly parsed status instead — "already present" fields
are preserved only when non-empty. -/
theorem auction_enrich_overwrites_empty_cex :
    cexAuction.status = some "" ∧
    (parse_auction_details_from_html "Leilão Publicado" none none none none none
      cexAuction).status = some "publicado" ∧
    (parse_auction_details_from_html "Leilão Publicado" none none none none none
      cexAuction).status ≠ cexAuction.status := by
  refine ⟨rfl, ?_, ?_⟩ <;> decide

/-- C5 witness: the amended theorem at a concrete partially-set auction. -/
theorem auction_enrich_fill_absent_amended_witness :
    (parse_auction_details_from_html "t" none (some "CityX") none none none witAuction).number
      = some "7" ∧
    (parse_auction_details_from_html "t" none (some "CityX") none none none witAuction).city
      = some "CityX" ∧
    (parse_auction_details_from_html "t" none (some "CityX") none none none witAuction).ends_at
      = some 5 ∧
    (parse_auction_details_from_html "t" none (some "CityX") none none none witAuction).url
      = "u" := by
  obtain ⟨h1, h2, h3, h4, h5, h6, h7, h8, h9, h10, h11, h12, h13, h14⟩ :=
    auction_enrich_fill_absent_amended "t" none (some "CityX") none none none witAuction
  exact ⟨h3 "7" rfl (by decide), h6 rfl, h13 5 rfl, h2⟩

/-- C2 (amended): a candidate list contributes records iff its first
dict-shaped item carries at least one id-like key **or** one
description-like key (case-insensitively) — the code keeps a candidate
with `score ≥ 1`, not `= 2`; on acceptance every dict-shaped item is
converted to one canonical record. -/
theorem extract_candidate_acceptance_amended :
    ∀ (dtParse : String → Option ℚ) (aid : String) (j : Json) (items : List Json)
      (rest : List (List Json)) (lots : List Lot),
      (extract_lots_from_json dtParse j aid =
        extractGo dtParse aid (iterCandidateItemLists j) []) ∧
      (items.isEmpty = true →
        extractGo dtParse aid (items :: rest) lots = extractGo dtParse aid rest lots) ∧
      (dictItems items = [] →
        extractGo dtParse aid (items :: rest) lots = extractGo dtParse aid rest lots) ∧
      (∀ sample others, dictItems items = sample :: others →
        hasIdKey sample = false → hasDescKey sample = false →
        extractGo dtParse aid (items :: rest) lots = extractGo dtParse aid rest lots) ∧
      (∀ sample others, dictItems items = sample :: others →
        (hasIdKey sample = true ∨ hasDescKey sample = true) →
        extractGo dtParse aid (items :: rest) lots =
          lots ++ (sample :: others).map (convertItem dtParse aid)) := by
  intro dt aid j items rest lots
  refine ⟨rfl, ?_, ?_, ?_, ?_⟩
  · intro h
    simp [extractGo, h]
  · intro h
    by_cases he : items.isEmpty
    · simp [extractGo, he]
    · simp only [extractGo, Bool.not_eq_true] at he ⊢
      rw [if_neg (by simp [he]), h]
  · intro sample others hd hid hdesc
    have hne : items ≠ [] := by
      intro he
      rw [he] at hd
      simp [dictItems] at hd
    have he : items.isEmpty = false := by
      cases items
      · exact absurd rfl hne
      · rfl
    have hscore : sampleScore sample = 0 := by
      simp [sampleScore, hid, hdesc]
    simp only [extractGo]
    rw [if_neg (by simp [he]), hd]
    simp [hscore]
  · intro sample others hd hor
    have hne : items ≠ [] := by
      intro he
      rw [he] at hd
      simp [dictItems] at hd
    have he : items.isEmpty = false := by
      cases items
      · exact absurd rfl hne
      · rfl
    have hscore : ¬sampleScore sample = 0 := by
      rcases hor with h | h <;> simp [sampleScore, h]
    have hni : (lots ++ (sample :: others).map (convertItem dt aid)).isEmpty = false := by
      cases lots <;> rfl
    simp only [extractGo]
    rw [if_neg (by simp [he]), hd]
    simp [hscore, hni]

/-- C2 counterexample: the candidate `{"items": [{"id": 1}]}` — id-like
key present, no description-like key — is accepted and yields one record,
refuting the "AND" acceptance rule. -/
theorem extract_accepts_single_kind_cex :
    hasIdKey [("id", Json.int 1)] = true ∧
    hasDescKey [("id", Json.int 1)] = false ∧
    (extract_lots_from_json dtNone jsonIdOnly "a").length = 1 := by
  have hiter : iterCandidateItemLists jsonIdOnly =
      [[Json.obj [("id", Json.int 1)]], [Json.obj [("id", Json.int 1)]]] := by
    simp [jsonIdOnly, iterCandidateItemLists, iterCommonKeys, iterAnyListValues,
      jsonLookup, commonContainerKeys, headIsCandidate]
  refine ⟨by decide, by decide, ?_⟩
  rw [extract_lots_from_json, hiter]
  decide

/-- C2 witness: the amended theorem's acceptance at a description-only
candidate and its rejection at a candidate with neither key kind. -/
theorem extract_candidate_acceptance_amended_witness :
    extractGo dtNone "a" [fooItems] [] = [] ∧
    extractGo dtNone "a" [descOnlyItems] [] =
      [convertItem dtNone "a" [("descricao", Json.str "x")]] := by
  have h1 := extract_candidate_acceptance_amended dtNone "a" Json.null fooItems [] []
  have h2 := extract_candidate_acceptance_amended dtNone "a" Json.null descOnlyItems [] []
  constructor
  · exact (h1.2.2.2.1 [("foo", Json.str "x")] [] rfl (by decide) (by decide)).trans rfl
  · exact (h2.2.2.2.2 [("descricao", Json.str "x")] [] rfl (Or.inr (by decide))).trans
      (List.nil_append _)

theorem mem_pythonRange {a b q : ℤ} : q ∈ pythonRange a b ↔ a ≤ q ∧ q < b := by
  simp only [pythonRange, List.mem_map, List.mem_range]
  constructor
  · rintro ⟨i, hi, rfl⟩
    omega
  · rintro ⟨h1, h2⟩
    exact ⟨(q - a).toNat, by omega, by omega⟩

theorem pythonRange_nodup (a b : ℤ) : (pythonRange a b).Nodup :=
  List.Nodup.map (fun i j h => by omega) (List.nodup_range _)

theorem pythonRange_split (a b c : ℤ) (h1 : a ≤ b) (h2 : b ≤ c) :
    pythonRange a c = pythonRange a b ++ pythonRange b c := by
  simp only [pythonRange]
  have hn : (c - a).toNat = (b - a).toNat + (c - b).toNat := by omega
  rw [hn, List.range_add, List.map_append, List.map_map]
  congr 1
  have hf : ((fun (i : ℕ) => a + (i : ℤ)) ∘ (fun i : ℕ => (b - a).toNat + i)) =
      fun (i : ℕ) => b + (i : ℤ) := by
    funext i
    simp only [Function.comp_apply]
    omega
  rw [hf]

theorem pythonRange_self (a : ℤ) : pythonRange a a = [] := by
  unfold pythonRange
  have h : (a - a).toNat = 0 := by omega
  rw [h]
  rfl

theorem pythonRange_cons (a b : ℤ) (h : a < b) :
    pythonRange a b = a :: pythonRange (a + 1) b := by
  have h1 : pythonRange a b = pythonRange a (a + 1) ++ pythonRange (a + 1) b :=
    pythonRange_split a (a + 1) b (by omega) (by omega)
  have h2 : pythonRange a (a + 1) = [a] := by
    unfold pythonRange
    have hn : (a + 1 - a).toNat = 1 := by omega
    rw [hn, show List.range 1 = [0] from rfl]
    simp
  rw [h1, h2]
  rfl

theorem mem_foldl_insert (ps : List ℤ) (d : Finset ℤ) (q : ℤ) :
    q ∈ ps.foldl (fun s x => insert x s) d ↔ q ∈ ps ∨ q ∈ d := by
  induction ps generalizing d with
  | nil => simp
  | cons x xs ih =>
    simp only [List.foldl_cons, ih, Finset.mem_insert, List.mem_cons]
    tauto

/-- One non-breaking iteration of the pagination loop: a fresh page,
fetched with status 200 and a parsed body, whose records are non-empty or
whose total page count is known, is logged, accumulated and marked done. -/
theorem apiLoop_step (dt : String → Option ℚ) (aid : String) (fetch : ℤ → FetchRes)
    (total : Option ℤ) (body : ℤ → Json) (q : ℤ) (rest : List ℤ) (st : ApiSt)
    (hfresh : q ∉ st.done)
    (hfetch : fetch q = .resp 200 (some (body q)))
    (hok : extract_lots_from_json dt (body q) aid ≠ [] ∨ total ≠ none) :
    apiLoop dt aid fetch (fun _ => true) "GET" none total (q :: rest) st =
      apiLoop dt aid fetch (fun _ => true) "GET" none total rest
        ⟨st.lots_all ++ extract_lots_from_json dt (body q) aid,
         insert q st.done, st.trace ++ [q]⟩ := by
  have hcond : ((extract_lots_from_json dt (body q) aid).isEmpty && total.isNone) = false := by
    rcases hok with h | h
    · cases hl : extract_lots_from_json dt (body q) aid with
      | nil => exact absurd hl h
      | cons a l => rfl
    · cases total with
      | none => exact absurd rfl h
      | some t => simp
  simp only [apiLoop]
  rw [if_neg (by simp)]
  rw [if_neg hfresh]
  rw [if_neg (by simp)]
  rw [if_neg (by simp)]
  rw [hfetch]
  simp [respOk, hcond]

/-- The loop over a block of fresh, well-behaved pages accumulates their
records, marks each done and traces each request, in order. -/
theorem apiLoop_good_run (dt : String → Option ℚ) (aid : String) (fetch : ℤ → FetchRes)
    (total : Option ℤ) (body : ℤ → Json) :
    ∀ (ps tail : List ℤ) (st : ApiSt),
      ps.Nodup →
      (∀ q ∈ ps, q ∉ st.done) →
      (∀ q ∈ ps, fetch q = .resp 200 (some (body q))) →
      (∀ q ∈ ps, extract_lots_from_json dt (body q) aid ≠ [] ∨ total ≠ none) →
      apiLoop dt aid fetch (fun _ => true) "GET" none total (ps ++ tail) st =
        apiLoop dt aid fetch (fun _ => true) "GET" none total tail
          ⟨st.lots_all ++ ps.flatMap (fun q => extract_lots_from_json dt (body q) aid),
           ps.foldl (fun d q => insert q d) st.done,
           st.trace ++ ps⟩ := by
  intro ps
  induction ps with
  | nil => intro tail st _ _ _ _; simp
  | cons q qs ih =>
    intro tail st hnodup hfresh hfetch hok
    have hstep := apiLoop_step dt aid fetch total body q (qs ++ tail) st
      (hfresh q (List.mem_cons_self _ _)) (hfetch q (List.mem_cons_self _ _))
      (hok q (List.mem_cons_self _ _))
    rw [List.cons_append, hstep]
    have hq_not_qs : q ∉ qs := (List.nodup_cons.mp hnodup).1
    have hrec := ih tail
      ⟨st.lots_all ++ extract_lots_from_json dt (body q) aid,
       insert q st.done, st.trace ++ [q]⟩
      (List.nodup_cons.mp hnodup).2
      (fun r hr => by
        simp only [Finset.mem_insert, not_or]
        exact ⟨fun he => hq_not_qs (he ▸ hr), hfresh r (List.mem_cons_of_mem _ hr)⟩)
      (fun r hr => hfetch r (List.mem_cons_of_mem _ hr))
      (fun r hr => hok r (List.mem_cons_of_mem _ hr))
    rw [hrec]
    congr 1
    simp [List.append_assoc]

/-- The breaking iteration: with no recognized total page count, a page
whose payload yields zero records is traced but not marked done, and the
loop halts normally (no auth abort, no error). -/
theorem apiLoop_break_empty (dt : String → Option ℚ) (aid : String) (fetch : ℤ → FetchRes)
    (body : ℤ → Json) (p : ℤ) (rest : List ℤ) (st : ApiSt)
    (hfresh : p ∉ st.done)
    (hfetch : fetch p = .resp 200 (some (body p)))
    (hempty : extract_lots_from_json dt (body p) aid = []) :
    apiLoop dt aid fetch (fun _ => true) "GET" none none (p :: rest) st =
      (⟨st.lots_all, st.done, st.trace ++ [p]⟩, false) := by
  simp only [apiLoop]
  rw [if_neg (by simp)]
  rw [if_neg hfresh]
  rw [if_neg (by simp)]
  rw [if_neg (by simp)]
  rw [hfetch]
  simp [respOk, hempty]

/-- C1: in the JSON-API pagination loop, when no total page count is
recognized from the best endpoint's payload (`get_total_pages = none`), a
fetched page `p` whose payload yields zero records halts pagination at
that page — `p` is the last page requested, it is *not* marked done, and
the loop exits normally (no auth abort; every exception is caught as a
`break`).  When a total page count `t` is recognized, an empty page does
not halt the loop: pagination requests every page up to the bound `t`,
and the empty page is still marked done in the checkpoint. -/
theorem json_api_empty_page_behavior :
    (∀ (dt : String → Option ℚ) (aid : String) (fetch : ℤ → FetchRes) (body : ℤ → Json)
        (bestJson : Json) (st0 : ApiSt) (p : ℤ),
      get_total_pages bestJson = none →
      2 ≤ p → p ≤ 50 →
      (∀ q, 2 ≤ q → q < p → fetch q = .resp 200 (some (body q))) →
      (∀ q, 2 ≤ q → q < p → extract_lots_from_json dt (body q) aid ≠ []) →
      fetch p = .resp 200 (some (body p)) →
      extract_lots_from_json dt (body p) aid = [] →
      (∀ q, 2 ≤ q → q ∉ st0.done) →
      st0.trace = [] →
      (tryCrawlPagination dt aid fetch (fun _ => true) "GET" none bestJson st0).1.trace =
          pythonRange 2 (p + 1) ∧
        p ∉ (tryCrawlPagination dt aid fetch (fun _ => true) "GET" none bestJson st0).1.done ∧
        (∀ q, 2 ≤ q → q < p →
          q ∈ (tryCrawlPagination dt aid fetch (fun _ => true) "GET" none bestJson st0).1.done) ∧
        (tryCrawlPagination dt aid fetch (fun _ => true) "GET" none bestJson st0).2 = false) ∧
    (∀ (dt : String → Option ℚ) (aid : String) (fetch : ℤ → FetchRes) (body : ℤ → Json)
        (bestJson : Json) (st0 : ApiSt) (p t : ℤ),
      get_total_pages bestJson = some t →
      2 ≤ p → p ≤ t →
      (∀ q, 2 ≤ q → q ≤ t → fetch q = .resp 200 (some (body q))) →
      extract_lots_from_json dt (body p) aid = [] →
      (∀ q, 2 ≤ q → q ∉ st0.done) →
      st0.trace = [] →
      (tryCrawlPagination dt aid fetch (fun _ => true) "GET" none bestJson st0).1.trace =
          pythonRange 2 (t + 1) ∧
        p ∈ (tryCrawlPagination dt aid fetch (fun _ => true) "GET" none bestJson st0).1.done ∧
        (tryCrawlPagination dt aid fetch (fun _ => true) "GET" none bestJson st0).2 = false) := by
  constructor
  · intro dt aid fetch body bestJson st0 p htot hp2 hp50 hfetch hne hfp hempty hfresh htrace
    have hmid : ApiSt.mk
        (st0.lots_all ++ (pythonRange 2 p).flatMap (fun q => extract_lots_from_json dt (body q) aid))
        ((pythonRange 2 p).foldl (fun d q => insert q d) st0.done)
        (st0.trace ++ pythonRange 2 p) =
        ⟨st0.lots_all ++ (pythonRange 2 p).flatMap (fun q => extract_lots_from_json dt (body q) aid),
         (pythonRange 2 p).foldl (fun d q => insert q d) st0.done,
         st0.trace ++ pythonRange 2 p⟩ := rfl
    have hpfresh : p ∉ (pythonRange 2 p).foldl (fun d q => insert q d) st0.done := by
      rw [mem_foldl_insert]
      rintro (hc | hc)
      · exact absurd ((mem_pythonRange.mp hc).2) (by omega)
      · exact hfresh p hp2 hc
    have hrun := apiLoop_good_run dt aid fetch none body (pythonRange 2 p)
      (p :: pythonRange (p + 1) 51) st0
      (pythonRange_nodup 2 p)
      (fun q hq => hfresh q (mem_pythonRange.mp hq).1)
      (fun q hq => hfetch q (mem_pythonRange.mp hq).1 (mem_pythonRange.mp hq).2)
      (fun q hq => Or.inl (hne q (mem_pythonRange.mp hq).1 (mem_pythonRange.mp hq).2))
    have hbreak := apiLoop_break_empty dt aid fetch body p (pythonRange (p + 1) 51)
      ⟨st0.lots_all ++ (pythonRange 2 p).flatMap (fun q => extract_lots_from_json dt (body q) aid),
       (pythonRange 2 p).foldl (fun d q => insert q d) st0.done,
       st0.trace ++ pythonRange 2 p⟩
      hpfresh hfp hempty
    have hlist : pythonRange 2 (50 + 1) = pythonRange 2 p ++ (p :: pythonRange (p + 1) 51) := by
      rw [show (50 + 1 : ℤ) = 51 from by norm_num]
      rw [pythonRange_split 2 p 51 hp2 (by omega), pythonRange_cons p 51 (by omega)]
    have hfinal : tryCrawlPagination dt aid fetch (fun _ => true) "GET" none bestJson st0 =
        (⟨st0.lots_all ++
            (pythonRange 2 p).flatMap (fun q => extract_lots_from_json dt (body q) aid),
          (pythonRange 2 p).foldl (fun d q => insert q d) st0.done,
          (st0.trace ++ pythonRange 2 p) ++ [p]⟩, false) := by
      simp only [tryCrawlPagination, htot, targetPages]
      rw [hlist, hrun, hbreak]
    have htrace_eq : pythonRange 2 p ++ [p] = pythonRange 2 (p + 1) := by
      rw [pythonRange_split 2 p (p + 1) hp2 (by omega),
        pythonRange_cons p (p + 1) (by omega), pythonRange_self]
    refine ⟨?_, ?_, ?_, ?_⟩
    · rw [hfinal]
      show (st0.trace ++ pythonRange 2 p) ++ [p] = pythonRange 2 (p + 1)
      rw [htrace, List.nil_append, htrace_eq]
    · rw [hfinal]
      exact hpfresh
    · intro q hq1 hq2
      rw [hfinal]
      show q ∈ (pythonRange 2 p).foldl (fun d q => insert q d) st0.done
      rw [mem_foldl_insert]
      exact Or.inl (mem_pythonRange.mpr ⟨hq1, hq2⟩)
    · rw [hfinal]
  · intro dt aid fetch body bestJson st0 p t htot hp2 hpt hfetch hempty hfresh htrace
    have hrun := apiLoop_good_run dt aid fetch (some t) body (pythonRange 2 (t + 1)) [] st0
      (pythonRange_nodup 2 (t + 1))
      (fun q hq => hfresh q (mem_pythonRange.mp hq).1)
      (fun q hq => hfetch q (mem_pythonRange.mp hq).1 (by
        have := (mem_pythonRange.mp hq).2
        omega))
      (fun q _ => Or.inr (by simp))
    have hfinal : tryCrawlPagination dt aid fetch (fun _ => true) "GET" none bestJson st0 =
        (⟨st0.lots_all ++
            (pythonRange 2 (t + 1)).flatMap (fun q => extract_lots_from_json dt (body q) aid),
          (pythonRange 2 (t + 1)).foldl (fun d q => insert q d) st0.done,
          st0.trace ++ pythonRange 2 (t + 1)⟩, false) := by
      simp only [tryCrawlPagination, htot, targetPages]
      rw [List.append_nil] at hrun
      rw [hrun]
      rfl
    refine ⟨?_, ?_, ?_⟩
    · rw [hfinal]
      show st0.trace ++ pythonRange 2 (t + 1) = pythonRange 2 (t + 1)
      rw [htrace, List.nil_append]
    · rw [hfinal]
      show p ∈ (pythonRange 2 (t + 1)).foldl (fun d q => insert q d) st0.done
      rw [mem_foldl_insert]
      exact Or.inl (mem_pythonRange.mpr ⟨hp2, by omega⟩)
    · rw [hfinal]

/-- C1 witness: the theorem at a concrete fetch oracle — pages 2 and 3
non-empty and page 4 empty with no recognized total (pagination halts at
page 4, unmarked), and an empty page 3 with recognized total 5
(pagination runs to page 5 and page 3 is marked done). -/
theorem json_api_empty_page_behavior_witness :
    (tryCrawlPagination dtNone "a" fetchA (fun _ => true) "GET" none emptyBody st0Api).1.trace =
        pythonRange 2 5 ∧
    4 ∉ (tryCrawlPagination dtNone "a" fetchA (fun _ => true) "GET" none emptyBody st0Api).1.done ∧
    3 ∈ (tryCrawlPagination dtNone "a" fetchA (fun _ => true) "GET" none emptyBody st0Api).1.done ∧
    (tryCrawlPagination dtNone "a" fetchA (fun _ => true) "GET" none emptyBody st0Api).2 = false ∧
    (tryCrawlPagination dtNone "a" fetchB (fun _ => true) "GET" none bodyTot st0Api).1.trace =
        pythonRange 2 6 ∧
    3 ∈ (tryCrawlPagination dtNone "a" fetchB (fun _ => true) "GET" none bodyTot st0Api).1.done ∧
    (tryCrawlPagination dtNone "a" fetchB (fun _ => true) "GET" none bodyTot st0Api).2 = false := by
  have hitergood : iterCandidateItemLists goodBody =
      [[Json.obj [("id", Json.int 1)]], [Json.obj [("id", Json.int 1)]]] := by
    simp [goodBody, iterCandidateItemLists, iterCommonKeys, iterAnyListValues,
      jsonLookup, commonContainerKeys, headIsCandidate]
  have hiterempty : iterCandidateItemLists emptyBody = [] := by
    simp [emptyBody, iterCandidateItemLists, iterCommonKeys, iterAnyListValues,
      jsonLookup, commonContainerKeys]
  have hgood : extract_lots_from_json dtNone goodBody "a" ≠ [] := by
    rw [extract_lots_from_json, hitergood]
    decide
  have hempty : extract_lots_from_json dtNone emptyBody "a" = [] := by
    rw [extract_lots_from_json, hiterempty]
    rfl
  have hA := json_api_empty_page_behavior.1 dtNone "a" fetchA bodyA emptyBody st0Api 4
    rfl (by decide) (by decide)
    (fun q _ _ => rfl)
    (fun q h1 h2 => by
      rw [show bodyA q = goodBody from if_pos h2]
      exact hgood)
    rfl
    (by rw [show bodyA 4 = emptyBody from rfl]; exact hempty)
    (fun q _ => Finset.not_mem_empty q)
    rfl
  have hB := json_api_empty_page_behavior.2 dtNone "a" fetchB bodyB bodyTot st0Api 3 5
    (by decide) (by decide) (by decide)
    (fun q _ _ => rfl)
    (by rw [show bodyB 3 = emptyBody from rfl]; exact hempty)
    (fun q _ => Finset.not_mem_empty q)
    rfl
  exact ⟨hA.1, hA.2.1, hA.2.2.1 3 (by decide) (by decide), hA.2.2.2, hB.1, hB.2.1, hB.2.2⟩
